import Mathlib

/-!
# BrowserOS server manager: a shallow embedding

Embedding of `chrome/browser/browseros_server/browseros_server_manager.cc`
(and its header).  Ports are C++ `int`s and are modelled as `Int`; the
manager object together with the host facilities it talks to (the settings
store, the task pool, the HTTP client) is a `World`, and every member
function is a function `World → World` that appends the outward calls it makes
to `World.log`.
-/

namespace BrowserOS

/-! ## Port predicates of the network library -/

/-- Modelled from the spec: `net::IsPortValid` is library code outside the
repository; the override diagnostic of the source reads "must be 1-65535" for
`IsPortValid(port) && port > 0`, so a valid port is one in `[0, 65535]`. -/
def IsPortValid (port : Int) : Bool :=
  decide (0 ≤ port) && decide (port ≤ 65535)

/-- Modelled from the spec: `net::IsWellKnownPort` is library code outside the
repository; the spec says "well-known port (<1024)" and the source comment
"well-known ports (0-1023)". -/
def IsWellKnownPort (port : Int) : Bool :=
  decide (0 ≤ port) && decide (port < 1024)

/-- What a port probe depends on at the moment of a call: the outcome of
`ListenWithAddressAndPort` on each loopback address, and whether the identity
provider needed by `SendInitRequest` can be reached. -/
structure Host where
  /-- Whether `ListenWithAddressAndPort("127.0.0.1", port, 1)` returns `net::OK`. -/
  listen4 : Int → Bool
  /-- Whether `ListenWithAddressAndPort("::1", port, 1)` returns `net::OK`. -/
  listen6 : Int → Bool
  /-- Whether the profile manager, profile, metrics service and JSON writer all succeed. -/
  install_id_available : Bool

/-- Embeds `BrowserOSServerManager::IsPortAvailable`; `allowed` stands for
`net::IsPortAllowedForScheme(port, "http")`, a table of the network library. -/
def IsPortAvailable (allowed : Int → Bool) (host : Host) (port : Int) : Bool :=
  if !IsPortValid port || port == 0 then false
  else if IsWellKnownPort port then false
  else if !allowed port then false
  else if !host.listen4 port then false
  else if !host.listen6 port then false
  else true

def kMaxPortAttempts : Nat := 100

def kMaxPort : Int := 65535

/-- The `for (int i = 0; i < kMaxPortAttempts; i++)` loop of
`FindAvailablePort`: `remaining` is `kMaxPortAttempts - i`, the number of
iterations still to run; `none` is leaving the loop (by `break` or by
exhausting it) without a `return`. -/
def FindAvailablePort.loop (avail : Int → Bool) (starting_port : Int) :
    (remaining : Nat) → (i : Int) → Option Int
  | 0, _ => none
  | remaining + 1, i =>
    let port_to_try := starting_port + i
    if port_to_try > kMaxPort then none
    else if avail port_to_try then some port_to_try
    else FindAvailablePort.loop avail starting_port remaining (i + 1)

/-- Embeds `BrowserOSServerManager::FindAvailablePort`. -/
def FindAvailablePort (allowed : Int → Bool) (host : Host) (starting_port : Int) : Int :=
  match FindAvailablePort.loop (IsPortAvailable allowed host) starting_port kMaxPortAttempts 0 with
  | some port_to_try => port_to_try
  | none => starting_port

/-! ## Example hosts -/

/-- Every port can be bound on both loopback addresses. -/
def Host.allFree : Host :=
  { listen4 := fun _ => true, listen6 := fun _ => true, install_id_available := true }

/-- No port can be bound on either loopback address. -/
def Host.allBound : Host :=
  { listen4 := fun _ => false, listen6 := fun _ => false, install_id_available := true }

/-- Port 9222 is taken on the IPv4 loopback, everything else is free. -/
def Host.busy9222 : Host :=
  { listen4 := fun p => p != 9222, listen6 := fun _ => true, install_id_available := true }

/-- A scheme policy that restricts nothing. -/
def allowAll : Int → Bool := fun _ => true

/-! ## Command line, settings store and configuration -/

/-- The values of the persistent settings store (`local_state`) that the
manager reads and writes. -/
structure Prefs where
  kCDPServerPort : Int
  kMCPServerPort : Int
  kAgentServerPort : Int
  kExtensionServerPort : Int
  kMCPServerEnabled : Bool
  deriving DecidableEq, Repr

/-- What is fixed for the lifetime of the browser process: the command line,
the integer parser and port policy of the libraries, and the default port
constants of `browseros_server_prefs.h` (a header that is not under `src/`,
so the constants are parameters). -/
structure Config where
  /-- The switch value (`GetSwitchValueASCII`) when `HasSwitch` holds, else `none`. -/
  command_line : String → Option String
  /-- The parser `base::StringToInt`: `some n` when it returns true with output `n`. -/
  StringToInt : String → Option Int
  /-- The policy `net::IsPortAllowedForScheme(port, "http")`. -/
  IsPortAllowedForScheme : Int → Bool
  kDefaultCDPPort : Int
  kDefaultMCPPort : Int
  kDefaultAgentPort : Int
  kDefaultExtensionPort : Int

/-- Embeds `GetPortOverrideFromCommandLine` (the warnings it logs are not modelled). -/
def GetPortOverrideFromCommandLine (cfg : Config) (switch_name : String) : Int :=
  match cfg.command_line switch_name with
  | none => 0
  | some port_str =>
    match cfg.StringToInt port_str with
    | none => 0
    | some port => if !IsPortValid port || decide (port ≤ 0) then 0 else port

/-! ## The manager and its surroundings -/

/-- Outward calls made by the manager, in the order they are made. -/
inductive Effect where
  /-- The call `DevToolsAgentHost::StartRemoteDebuggingServer` with the factory's `uint16_t` port. -/
  | StartRemoteDebuggingServer (port : Int)
  | StopRemoteDebuggingServer
  /-- The posted task `LaunchProcessOnBackgroundThread` with its four `uint16_t` ports. -/
  | PostLaunch (cdp_port mcp_port agent_port extension_port : Int)
  /-- The graceful `process_.Terminate(0, false)` on the handle `pid`. -/
  | Terminate (pid : Nat)
  /-- The delayed task that force-kills a duplicate of the handle `pid`. -/
  | PostDelayedKill (pid : Nat)
  /-- The `GET /health` on the given port. -/
  | HealthCheckRequest (mcp_port : Int)
  /-- The `POST /mcp/control` on the given port with the given `enabled`. -/
  | MCPControlRequest (mcp_port : Int) (enabled : Bool)
  /-- The `POST /init` on the given port. -/
  | InitRequest (mcp_port : Int)
  deriving DecidableEq, Repr

/-- The fields of `BrowserOSServerManager`, followed by the state of the host
facilities it drives. -/
structure World where
  /-- The handle `process_`: `none` is an invalid handle. -/
  process_ : Option Nat
  cdp_port_ : Int
  mcp_port_ : Int
  agent_port_ : Int
  extension_port_ : Int
  mcp_enabled_ : Bool
  is_running_ : Bool
  init_request_sent_ : Bool
  /-- Whether `health_check_timer_` is running. -/
  health_check_timer_ : Bool
  /-- Whether `process_check_timer_` is running. -/
  process_check_timer_ : Bool
  /-- Whether `pref_change_registrar_` is set. -/
  pref_change_registrar_ : Bool
  /-- What `g_browser_process->local_state()` returns. -/
  local_state : Option Prefs
  /-- Launch tasks posted whose reply `OnProcessLaunched` has not run yet. -/
  pending_launches : Nat
  /-- Health requests issued whose `OnHealthCheckComplete` has not run yet. -/
  pending_health_checks : Nat
  /-- Outward calls made so far, oldest first. -/
  log : List Effect
  deriving DecidableEq, Repr

/-- A freshly constructed manager (the member initialisers of the header) on a
host with the given settings store. -/
def World.initial (local_state : Option Prefs) : World :=
  { process_ := none, cdp_port_ := 0, mcp_port_ := 0, agent_port_ := 0, extension_port_ := 0,
    mcp_enabled_ := true, is_running_ := false, init_request_sent_ := false,
    health_check_timer_ := false, process_check_timer_ := false,
    pref_change_registrar_ := false, local_state := local_state,
    pending_launches := 0, pending_health_checks := 0, log := [] }

/-- Conversion of an `int` to `uint16_t`. -/
def toUint16 (x : Int) : Int := x % 65536

/-- Embeds `BrowserOSServerManager::IsRunning`. -/
def IsRunning (w : World) : Bool := w.is_running_ && w.process_.isSome

/-- Embeds `BrowserOSServerManager::InitializePortsAndPrefs`.  The notification that
`SetBoolean` may deliver to `OnMCPEnabledChanged` is left out: it reads back
the value just written, which equals `mcp_enabled_`, and so does nothing. -/
def InitializePortsAndPrefs (cfg : Config) (w : World) : World :=
  let w1 : World :=
    match w.local_state with
    | none =>
      { w with cdp_port_ := cfg.kDefaultCDPPort, mcp_port_ := cfg.kDefaultMCPPort,
               agent_port_ := cfg.kDefaultAgentPort,
               extension_port_ := cfg.kDefaultExtensionPort, mcp_enabled_ := true }
    | some prefs =>
      { w with
        cdp_port_ := if prefs.kCDPServerPort ≤ 0 then cfg.kDefaultCDPPort
                     else prefs.kCDPServerPort,
        mcp_port_ := if prefs.kMCPServerPort ≤ 0 then cfg.kDefaultMCPPort
                     else prefs.kMCPServerPort,
        agent_port_ := if prefs.kAgentServerPort ≤ 0 then cfg.kDefaultAgentPort
                       else prefs.kAgentServerPort,
        extension_port_ := if prefs.kExtensionServerPort ≤ 0 then cfg.kDefaultExtensionPort
                           else prefs.kExtensionServerPort,
        mcp_enabled_ := prefs.kMCPServerEnabled,
        pref_change_registrar_ := true }
  let mcp_override := GetPortOverrideFromCommandLine cfg "browseros-mcp-port"
  let w2 : World :=
    if mcp_override > 0 then { w1 with mcp_port_ := mcp_override, mcp_enabled_ := true } else w1
  let cdp_override := GetPortOverrideFromCommandLine cfg "browseros-cdp-port"
  let w3 : World := if cdp_override > 0 then { w2 with cdp_port_ := cdp_override } else w2
  let agent_override := GetPortOverrideFromCommandLine cfg "browseros-agent-port"
  let w4 : World := if agent_override > 0 then { w3 with agent_port_ := agent_override } else w3
  let extension_override := GetPortOverrideFromCommandLine cfg "browseros-extension-port"
  let w5 : World :=
    if extension_override > 0 then { w4 with extension_port_ := extension_override } else w4
  match w5.local_state with
  | none => w5
  | some _ =>
    let saved : Prefs :=
      { kCDPServerPort := w5.cdp_port_, kMCPServerPort := w5.mcp_port_,
        kAgentServerPort := w5.agent_port_, kExtensionServerPort := w5.extension_port_,
        kMCPServerEnabled := w5.mcp_enabled_ }
    { w5 with local_state := some saved }

/-- Embeds `BrowserOSServerManager::StartCDPServer`. -/
def StartCDPServer (cfg : Config) (host : Host) (w : World) : World :=
  let cdp := FindAvailablePort cfg.IsPortAllowedForScheme host w.cdp_port_
  let mcp := FindAvailablePort cfg.IsPortAllowedForScheme host w.mcp_port_
  let agent := FindAvailablePort cfg.IsPortAllowedForScheme host w.agent_port_
  let extension := FindAvailablePort cfg.IsPortAllowedForScheme host w.extension_port_
  { w with cdp_port_ := cdp, mcp_port_ := mcp, agent_port_ := agent,
           extension_port_ := extension,
           log := w.log ++ [Effect.StartRemoteDebuggingServer (toUint16 cdp)] }

/-- Embeds `BrowserOSServerManager::StopCDPServer`. -/
def StopCDPServer (w : World) : World :=
  if w.cdp_port_ = 0 then w
  else { w with cdp_port_ := 0, log := w.log ++ [Effect.StopRemoteDebuggingServer] }

/-- Embeds `BrowserOSServerManager::LaunchBrowserOSProcess`: the four ports are
captured as `uint16_t` and the launch is posted to the thread pool; its result
comes back later through `OnProcessLaunched`. -/
def LaunchBrowserOSProcess (w : World) : World :=
  { w with pending_launches := w.pending_launches + 1,
           log := w.log ++ [Effect.PostLaunch (toUint16 w.cdp_port_) (toUint16 w.mcp_port_)
                              (toUint16 w.agent_port_) (toUint16 w.extension_port_)] }

/-- Embeds `BrowserOSServerManager::SendMCPControlRequest`. -/
def SendMCPControlRequest (w : World) (enabled : Bool) : World :=
  if !w.is_running_ then w
  else { w with log := w.log ++ [Effect.MCPControlRequest w.mcp_port_ enabled] }

/-- Embeds `BrowserOSServerManager::SendInitRequest`. -/
def SendInitRequest (host : Host) (w : World) : World :=
  if !w.is_running_ then w
  else if !host.install_id_available then w
  else { w with log := w.log ++ [Effect.InitRequest w.mcp_port_] }

/-- Embeds `BrowserOSServerManager::OnProcessLaunched`; `process` is `none` for an
invalid handle. -/
def OnProcessLaunched (w : World) (process : Option Nat) : World :=
  match process with
  | none => StopCDPServer w
  | some pid =>
    let w1 : World :=
      { w with process_ := some pid, is_running_ := true, process_check_timer_ := true }
    if !w1.mcp_enabled_ then SendMCPControlRequest w1 false else w1

/-- Embeds `BrowserOSServerManager::TerminateBrowserOSProcess`. -/
def TerminateBrowserOSProcess (w : World) : World :=
  match w.process_ with
  | none => w
  | some pid =>
    { w with init_request_sent_ := false, is_running_ := false,
             log := w.log ++ [Effect.Terminate pid, Effect.PostDelayedKill pid] }

/-- Embeds `BrowserOSServerManager::Start`. -/
def Start (cfg : Config) (host : Host) (w : World) : World :=
  if w.is_running_ then w
  else
    let w1 := InitializePortsAndPrefs cfg w
    if (cfg.command_line "disable-browseros-server").isSome then w1
    else
      let w2 := StartCDPServer cfg host w1
      let w3 := LaunchBrowserOSProcess w2
      { w3 with health_check_timer_ := true }

/-- Embeds `BrowserOSServerManager::Stop`. -/
def Stop (w : World) : World :=
  if !w.is_running_ then w
  else
    StopCDPServer (TerminateBrowserOSProcess
      { w with health_check_timer_ := false, process_check_timer_ := false })

/-- Embeds `BrowserOSServerManager::OnProcessExited`. -/
def OnProcessExited (cfg : Config) (host : Host) (w : World) (exit_code : Int) : World :=
  let w1 := StopCDPServer { w with is_running_ := false }
  if exit_code ≠ 0 then Start cfg host w1 else w1

/-- Embeds `BrowserOSServerManager::RestartBrowserOSProcess`. -/
def RestartBrowserOSProcess (w : World) : World :=
  LaunchBrowserOSProcess (TerminateBrowserOSProcess { w with process_check_timer_ := false })

/-- Embeds `BrowserOSServerManager::CheckServerHealth`. -/
def CheckServerHealth (w : World) : World :=
  if !w.is_running_ then w
  else if !w.process_.isSome then RestartBrowserOSProcess w
  else
    { w with pending_health_checks := w.pending_health_checks + 1,
             log := w.log ++ [Effect.HealthCheckRequest w.mcp_port_] }

/-- Embeds `BrowserOSServerManager::CheckProcessStatus`; `exited` is the outcome of the
non-blocking `WaitForExitWithTimeout`: `some exit_code` when the process has
exited. -/
def CheckProcessStatus (cfg : Config) (host : Host) (w : World) (exited : Option Int) : World :=
  if !w.is_running_ || !w.process_.isSome then w
  else
    match exited with
    | some exit_code => OnProcessExited cfg host w exit_code
    | none => w

/-- Embeds `BrowserOSServerManager::OnHealthCheckComplete`; `headers` is `none` when
there are no response headers, else the response code. -/
def OnHealthCheckComplete (host : Host) (w : World) (headers : Option Int) : World :=
  if !w.is_running_ then w
  else
    let response_code : Int :=
      match headers with
      | some code => code
      | none => 0
    if response_code = 200 then
      if !w.init_request_sent_ then SendInitRequest host { w with init_request_sent_ := true }
      else w
    else RestartBrowserOSProcess w

/-- Embeds `BrowserOSServerManager::OnMCPEnabledChanged`. -/
def OnMCPEnabledChanged (w : World) : World :=
  if !w.is_running_ then w
  else
    match w.local_state with
    | none => w
    | some prefs =>
      let new_value := prefs.kMCPServerEnabled
      if new_value ≠ w.mcp_enabled_ then
        SendMCPControlRequest { w with mcp_enabled_ := new_value } new_value
      else w

/-! ## Events -/

/-- What can happen to a manager: the two public calls, and the callbacks the
host delivers. -/
inductive Event where
  | Start
  | Stop
  /-- The reply of a posted launch, with the launched handle or `none`. -/
  | ProcessLaunched (process : Option Nat)
  /-- A tick of `health_check_timer_`. -/
  | HealthCheckTimer
  /-- A tick of `process_check_timer_`, with the outcome of the exit poll. -/
  | ProcessCheckTimer (exited : Option Int)
  /-- Completion of a health request, with the response code if any. -/
  | HealthCheckComplete (headers : Option Int)
  /-- The settings UI writes the feature flag. -/
  | SetMCPEnabledPref (value : Bool)
  deriving DecidableEq, Repr

/-- One event on a world.  An event that cannot be delivered (a reply with
nothing pending, a tick of a stopped timer) leaves the world as it is. -/
def step (cfg : Config) (host : Host) (w : World) : Event → World
  | Event.Start => Start cfg host w
  | Event.Stop => Stop w
  | Event.ProcessLaunched process =>
    if w.pending_launches = 0 then w
    else OnProcessLaunched { w with pending_launches := w.pending_launches - 1 } process
  | Event.HealthCheckTimer =>
    if w.health_check_timer_ then CheckServerHealth w else w
  | Event.ProcessCheckTimer exited =>
    if w.process_check_timer_ then CheckProcessStatus cfg host w exited else w
  | Event.HealthCheckComplete headers =>
    if w.pending_health_checks = 0 then w
    else OnHealthCheckComplete host
      { w with pending_health_checks := w.pending_health_checks - 1 } headers
  | Event.SetMCPEnabledPref value =>
    match w.local_state with
    | none => w
    | some prefs =>
      let w1 : World := { w with local_state := some { prefs with kMCPServerEnabled := value } }
      if w.pref_change_registrar_ ∧ prefs.kMCPServerEnabled ≠ value then OnMCPEnabledChanged w1
      else w1

/-- A sequence of events, oldest first. -/
def run (cfg : Config) (host : Host) (w : World) (events : List Event) : World :=
  events.foldl (step cfg host) w

/-- The worlds a manager can be in: those obtained from a fresh manager by
events, the host varying freely from one event to the next. -/
inductive Reachable (cfg : Config) : World → Prop where
  | initial (local_state : Option Prefs) : Reachable cfg (World.initial local_state)
  | step (host : Host) (w : World) (ev : Event) :
      Reachable cfg w → Reachable cfg (step cfg host w ev)

/-! ## Example configuration -/

/-- An example of an integer parser: optional sign, then decimal digits. -/
def decimalDigits : List Char → Nat → Option Nat
  | [], acc => some acc
  | c :: cs, acc =>
    if '0' ≤ c ∧ c ≤ '9' then decimalDigits cs (acc * 10 + (c.toNat - '0'.toNat)) else none

/-- An example of an integer parser: optional sign, then decimal digits. -/
def decimalStringToInt (s : String) : Option Int :=
  match s.data with
  | [] => none
  | '-' :: cs => if cs.isEmpty then none else (decimalDigits cs 0).map (fun n => -(n : Int))
  | '+' :: cs => if cs.isEmpty then none else (decimalDigits cs 0).map (fun n => (n : Int))
  | cs => (decimalDigits cs 0).map (fun n => (n : Int))

/-- An example configuration with an empty command line. -/
def Config.sample : Config :=
  { command_line := fun _ => none, StringToInt := decimalStringToInt,
    IsPortAllowedForScheme := allowAll,
    kDefaultCDPPort := 9222, kDefaultMCPPort := 9223,
    kDefaultAgentPort := 9224, kDefaultExtensionPort := 9225 }

/-- The example configuration with `--browseros-mcp-port=9300`. -/
def Config.mcpOverride : Config :=
  { Config.sample with
    command_line := fun s => if s = "browseros-mcp-port" then some "9300" else none }

/-- An example settings store. -/
def Prefs.sample : Prefs :=
  { kCDPServerPort := 9222, kMCPServerPort := 9223, kAgentServerPort := 9224,
    kExtensionServerPort := 9225, kMCPServerEnabled := true }

/-! ## Port resolution as the spec words it -/

/-- The value the spec gives a port before overrides: the stored value, or
the default constant when the store is missing or the stored value is not positive. -/
def storedOrDefault (local_state : Option Prefs) (read : Prefs → Int) (dflt : Int) : Int :=
  match local_state with
  | none => dflt
  | some prefs => if read prefs ≤ 0 then dflt else read prefs

/-- The flag before overrides: the stored flag, or true without a store. -/
def storedFlag (local_state : Option Prefs) : Bool :=
  match local_state with
  | none => true
  | some prefs => prefs.kMCPServerEnabled

/-- Precedence as the spec words it: a valid override wins over the stored or default value. -/
def resolvedPort (cfg : Config) (switch_name : String) (local_state : Option Prefs)
    (read : Prefs → Int) (dflt : Int) : Int :=
  if GetPortOverrideFromCommandLine cfg switch_name > 0 then
    GetPortOverrideFromCommandLine cfg switch_name
  else storedOrDefault local_state read dflt

/-- The flag as the spec words it: forced to true by a control-port override. -/
def resolvedFlag (cfg : Config) (local_state : Option Prefs) : Bool :=
  if GetPortOverrideFromCommandLine cfg "browseros-mcp-port" > 0 then true
  else storedFlag local_state

/-- The settings the spec has `Resolve` produce. -/
def resolvedPrefs (cfg : Config) (local_state : Option Prefs) : Prefs :=
  { kCDPServerPort :=
      resolvedPort cfg "browseros-cdp-port" local_state Prefs.kCDPServerPort cfg.kDefaultCDPPort,
    kMCPServerPort :=
      resolvedPort cfg "browseros-mcp-port" local_state Prefs.kMCPServerPort cfg.kDefaultMCPPort,
    kAgentServerPort :=
      resolvedPort cfg "browseros-agent-port" local_state Prefs.kAgentServerPort
        cfg.kDefaultAgentPort,
    kExtensionServerPort :=
      resolvedPort cfg "browseros-extension-port" local_state Prefs.kExtensionServerPort
        cfg.kDefaultExtensionPort,
    kMCPServerEnabled := resolvedFlag cfg local_state }

/-- A settings store whose flag is off and whose agent port is unset. -/
def Prefs.disabled : Prefs :=
  { kCDPServerPort := 9222, kMCPServerPort := 9223, kAgentServerPort := 0,
    kExtensionServerPort := 9225, kMCPServerEnabled := false }

/-! ## Observations on worlds and logs -/

/-- The invariant behind `IsRunning`: a set running flag comes with a valid handle. -/
def RunningHasProcess (w : World) : Prop := w.is_running_ = true → w.process_.isSome = true

def Effect.isPostLaunch : Effect → Bool
  | Effect.PostLaunch _ _ _ _ => true
  | _ => false

def Effect.isInitRequest : Effect → Bool
  | Effect.InitRequest _ => true
  | _ => false

def Effect.isTerminate : Effect → Bool
  | Effect.Terminate _ => true
  | _ => false

/-- Number of launches posted in a log. -/
def launchCount (log : List Effect) : Nat := log.countP Effect.isPostLaunch

/-- Number of init handshakes sent in a log. -/
def initRequestCount (log : List Effect) : Nat := log.countP Effect.isInitRequest

/-- Number of graceful terminations in a log. -/
def terminateCount (log : List Effect) : Nat := log.countP Effect.isTerminate

/-- A fresh manager over the example store. -/
def World.fresh : World := World.initial (some Prefs.sample)

/-- A running manager: started, and its launch has succeeded with handle 1. -/
def World.running : World :=
  run Config.sample Host.allFree World.fresh [Event.Start, Event.ProcessLaunched (some 1)]

def Effect.isControlRequest : Effect → Bool
  | Effect.MCPControlRequest _ _ => true
  | _ => false

/-- Number of control requests sent in a log. -/
def controlRequestCount (log : List Effect) : Nat := log.countP Effect.isControlRequest

/-- What holds of a manager run with `--disable-browseros-server`: it never
posts a launch and never becomes running. -/
def DisabledStaysIdle (cfg : Config) (w : World) : Prop :=
  (cfg.command_line "disable-browseros-server").isSome = true →
    w.is_running_ = false ∧ w.pending_launches = 0

/-- What `StopCDPServer` adds to the log when the debug port is `cdp_port`. -/
def closeLog (cdp_port : Int) : List Effect :=
  if cdp_port = 0 then [] else [Effect.StopRemoteDebuggingServer]

/-- The running example manager after the settings UI has stored a cleared flag. -/
def World.runningFlagCleared : World :=
  { World.running with local_state := some { Prefs.sample with kMCPServerEnabled := false } }

/-- A settings store whose debug port is above the 16-bit range. -/
def Prefs.outOfRange : Prefs :=
  { kCDPServerPort := 70000, kMCPServerPort := 9223, kAgentServerPort := 9224,
    kExtensionServerPort := 9225, kMCPServerEnabled := true }

/-- A manager over the out-of-range store, started, with its launch succeeded. -/
def World.runningOutOfRange : World :=
  run Config.sample Host.allFree (World.initial (some Prefs.outOfRange))
    [Event.Start, Event.ProcessLaunched (some 1)]

/-- Events that leave the current process in place: they neither terminate it,
nor report its exit, nor deliver a newly launched process. -/
def Event.keepsProcess : Event → Bool
  | Event.Start => true
  | Event.ProcessLaunched none => true
  | Event.HealthCheckTimer => true
  | Event.ProcessCheckTimer none => true
  | Event.HealthCheckComplete (some code) => decide (code = 200)
  | Event.SetMCPEnabledPref _ => true
  | _ => false

/-- Init handshakes sent so far, plus the one still to come while the
init-handshake-sent flag is clear. -/
def initBudget (w : World) : Nat :=
  initRequestCount w.log + (if w.init_request_sent_ = true then 0 else 1)

/-- The preferred port `p` comes back from `FindAvailablePort` unchanged: it is
available itself, or no port of its probe window is. -/
def keptByProbe (allowed : Int → Bool) (host : Host) (p : Int) : Prop :=
  IsPortAvailable allowed host p = true ∨
    ∀ q, p ≤ q → q ≤ min (p + 99) 65535 → IsPortAvailable allowed host q = false

/-- The two preferred ports `p` and `q` are resolved to one port: no port from
the smaller of them up to the larger (excluded) is available, while some port
from the larger up to the end of the smaller one's probe window is. -/
def resolveAlike (allowed : Int → Bool) (host : Host) (p q : Int) : Prop :=
  (∀ x, min p q ≤ x → x < max p q → IsPortAvailable allowed host x = false) ∧
    ∃ x, max p q ≤ x ∧ x ≤ min (min p q + 99) 65535 ∧ IsPortAvailable allowed host x = true

theorem FindAvailablePort.loop_some (avail : Int → Bool) (p : Int) :
    ∀ (n : Nat) (i q : Int), FindAvailablePort.loop avail p n i = some q →
      p + i ≤ q ∧ q < p + i + n ∧ q ≤ 65535 ∧ avail q = true ∧
        ∀ q', p + i ≤ q' → q' < q → avail q' = false := by
  intro n
  induction n with
  | zero => intro i q h; simp [FindAvailablePort.loop] at h
  | succ n ih =>
    intro i q h
    simp only [FindAvailablePort.loop, kMaxPort] at h
    by_cases h1 : p + i > 65535
    · simp [h1] at h
    · by_cases h2 : avail (p + i) = true
      · simp [h1, h2] at h
        subst h
        refine ⟨le_refl _, by push_cast; omega, by omega, h2, ?_⟩
        intro q' h3 h4; omega
      · simp [h1, h2] at h
        obtain ⟨a, b, c, d, e⟩ := ih (i + 1) q h
        refine ⟨by omega, by push_cast; omega, c, d, ?_⟩
        intro q' h3 h4
        by_cases h5 : q' = p + i
        · subst h5; simpa using h2
        · exact e q' (by omega) h4

theorem FindAvailablePort.loop_none (avail : Int → Bool) (p : Int) :
    ∀ (n : Nat) (i : Int), FindAvailablePort.loop avail p n i = none →
      ∀ q, p + i ≤ q → q < p + i + n → q ≤ 65535 → avail q = false := by
  intro n
  induction n with
  | zero => intro i _ q h1 h2 _; simp at h2; omega
  | succ n ih =>
    intro i h q h1 h2 h3
    simp only [FindAvailablePort.loop, kMaxPort] at h
    by_cases h4 : p + i > 65535
    · omega
    · by_cases h5 : avail (p + i) = true
      · simp [h4, h5] at h
      · simp [h4, h5] at h
        by_cases h6 : q = p + i
        · subst h6; simpa using h5
        · exact ih (i + 1) h q (by omega) (by push_cast at h2; omega) h3

/-- Result of `FindAvailablePort` when the loop returns. -/
theorem FindAvailablePort_of_loop_some (allowed : Int → Bool) (host : Host) (p q : Int)
    (h : FindAvailablePort.loop (IsPortAvailable allowed host) p kMaxPortAttempts 0 = some q) :
    FindAvailablePort allowed host p = q := by
  simp [FindAvailablePort, h]

/-- Result of `FindAvailablePort` when the loop is left without a `return`. -/
theorem FindAvailablePort_of_loop_none (allowed : Int → Bool) (host : Host) (p : Int)
    (h : FindAvailablePort.loop (IsPortAvailable allowed host) p kMaxPortAttempts 0 = none) :
    FindAvailablePort allowed host p = p := by
  simp [FindAvailablePort, h]

/-- The two outcomes of `FindAvailablePort`: either the least available port of
the window `[p, min (p + 99) 65535]`, or `p` itself when the window holds no
available port. -/
theorem FindAvailablePort_cases (allowed : Int → Bool) (host : Host) (p : Int) :
    (p ≤ FindAvailablePort allowed host p ∧
      FindAvailablePort allowed host p ≤ min (p + 99) 65535 ∧
      IsPortAvailable allowed host (FindAvailablePort allowed host p) = true ∧
      ∀ q, p ≤ q → q < FindAvailablePort allowed host p →
        IsPortAvailable allowed host q = false) ∨
    (FindAvailablePort allowed host p = p ∧
      ∀ q, p ≤ q → q ≤ min (p + 99) 65535 → IsPortAvailable allowed host q = false) := by
  cases h : FindAvailablePort.loop (IsPortAvailable allowed host) p kMaxPortAttempts 0 with
  | some r =>
    left
    rw [FindAvailablePort_of_loop_some allowed host p r h]
    obtain ⟨a, b, c, d, e⟩ := FindAvailablePort.loop_some _ p _ 0 r h
    simp only [kMaxPortAttempts] at b
    refine ⟨by omega, ?_, d, ?_⟩
    · rw [le_min_iff]; constructor <;> omega
    · intro q h1 h2; exact e q (by omega) h2
  | none =>
    right
    refine ⟨FindAvailablePort_of_loop_none allowed host p h, ?_⟩
    intro q h1 h2
    rw [le_min_iff] at h2
    have := FindAvailablePort.loop_none _ p _ 0 h q (by omega)
      (by simp only [kMaxPortAttempts]; omega) h2.2
    exact this

/-! ## Claims on port allocation -/

/-- C1: with availability a fixed predicate during the call,
`FindAvailablePort p` is the smallest `q` with `p ≤ q ≤ min (p + 99) 65535`
for which `IsPortAvailable q` holds, and is `p` itself when there is no such
`q`; in particular with 9222 unavailable and 9223 available the result for 9222
is 9223. -/
theorem FindAvailablePort_smallest_available (allowed : Int → Bool) (host : Host) (p : Int) :
    ((∃ q, p ≤ q ∧ q ≤ min (p + 99) 65535 ∧ IsPortAvailable allowed host q = true) →
      p ≤ FindAvailablePort allowed host p ∧
      FindAvailablePort allowed host p ≤ min (p + 99) 65535 ∧
      IsPortAvailable allowed host (FindAvailablePort allowed host p) = true ∧
      ∀ q, p ≤ q → q ≤ min (p + 99) 65535 → IsPortAvailable allowed host q = true →
        FindAvailablePort allowed host p ≤ q) ∧
    ((∀ q, p ≤ q → q ≤ min (p + 99) 65535 → IsPortAvailable allowed host q = false) →
      FindAvailablePort allowed host p = p) ∧
    (IsPortAvailable allowed host 9222 = false → IsPortAvailable allowed host 9223 = true →
      FindAvailablePort allowed host 9222 = 9223) := by
  refine ⟨?_, ?_, ?_⟩
  · rintro ⟨q0, h1, h2, h3⟩
    rcases FindAvailablePort_cases allowed host p with ⟨a, b, c, d⟩ | ⟨_, d⟩
    · refine ⟨a, b, c, ?_⟩
      intro q h4 _ h6
      by_contra h7
      have := d q h4 (by omega)
      simp [h6] at this
    · have := d q0 h1 h2
      simp [h3] at this
  · intro h
    rcases FindAvailablePort_cases allowed host p with ⟨a, b, c, _⟩ | ⟨e, _⟩
    · have := h _ a b
      simp [c] at this
    · exact e
  · intro h1 h2
    rcases FindAvailablePort_cases allowed host 9222 with ⟨a, b, c, d⟩ | ⟨_, d⟩
    · by_contra h3
      by_cases h4 : FindAvailablePort allowed host 9222 = 9222
      · rw [h4] at c; simp [h1] at c
      · have := d 9223 (by norm_num) (by omega)
        simp [h2] at this
    · have := d 9223 (by norm_num) (by norm_num)
      simp [h2] at this

/-- Witness for C1: on a host where only 9222 is taken the three hypotheses
hold at `p = 9222`, and on a host where everything is taken the fallback
applies. -/
theorem FindAvailablePort_smallest_available_witness :
    FindAvailablePort allowAll Host.busy9222 9222 = 9223 ∧
    IsPortAvailable allowAll Host.busy9222 (FindAvailablePort allowAll Host.busy9222 9222) = true ∧
    FindAvailablePort allowAll Host.allBound 9222 = 9222 :=
  ⟨(FindAvailablePort_smallest_available allowAll Host.busy9222 9222).2.2
      (by decide) (by decide),
   ((FindAvailablePort_smallest_available allowAll Host.busy9222 9222).1
      ⟨9223, by decide, by decide, by decide⟩).2.2.1,
   (FindAvailablePort_smallest_available allowAll Host.allBound 9222).2.1
      (fun q _ _ => by simp [IsPortAvailable, Host.allBound])⟩

/-- C2, refuted as stated: started at the well-known port 80 on a host where
every loopback port is bound, `FindAvailablePort` returns 80, a well-known port
that is bound on both loopback addresses and does not satisfy
`IsPortAvailable`. -/
theorem FindAvailablePort_returns_well_known_bound_port :
    FindAvailablePort allowAll Host.allBound 80 = 80 ∧
    IsWellKnownPort (FindAvailablePort allowAll Host.allBound 80) = true ∧
    Host.allBound.listen4 (FindAvailablePort allowAll Host.allBound 80) = false ∧
    Host.allBound.listen6 (FindAvailablePort allowAll Host.allBound 80) = false ∧
    IsPortAvailable allowAll Host.allBound (FindAvailablePort allowAll Host.allBound 80) = false := by
  have h : FindAvailablePort allowAll Host.allBound 80 = 80 := by
    rcases FindAvailablePort_cases allowAll Host.allBound 80 with ⟨_, _, c, _⟩ | ⟨e, _⟩
    · simp [IsPortAvailable, Host.allBound] at c
    · exact e
  rw [h]
  exact ⟨rfl, by decide, rfl, rfl, by decide⟩

/-- C2, amended: whenever the window `[p, min (p + 99) 65535]` holds a port
satisfying `IsPortAvailable`, the port returned by `FindAvailablePort p`
satisfies `IsPortAvailable`: it is not well-known, lies in `[1024, 65535]`, and
is bound on neither loopback address at the time of the call. -/
theorem FindAvailablePort_available_of_exists (allowed : Int → Bool) (host : Host) (p : Int)
    (h : ∃ q, p ≤ q ∧ q ≤ min (p + 99) 65535 ∧ IsPortAvailable allowed host q = true) :
    IsPortAvailable allowed host (FindAvailablePort allowed host p) = true ∧
    IsWellKnownPort (FindAvailablePort allowed host p) = false ∧
    1024 ≤ FindAvailablePort allowed host p ∧ FindAvailablePort allowed host p ≤ 65535 ∧
    host.listen4 (FindAvailablePort allowed host p) = true ∧
    host.listen6 (FindAvailablePort allowed host p) = true := by
  obtain ⟨q0, h1, h2, h3⟩ := h
  rcases FindAvailablePort_cases allowed host p with ⟨_, _, c, _⟩ | ⟨_, d⟩
  · generalize FindAvailablePort allowed host p = r at c
    simp only [IsPortAvailable, IsPortValid, IsWellKnownPort] at c ⊢
    by_cases k1 : 0 ≤ r <;> by_cases k2 : r ≤ 65535 <;> by_cases k3 : r < 1024 <;>
      by_cases k4 : host.listen4 r = true <;> by_cases k5 : host.listen6 r = true <;>
      simp_all
  · have := d q0 h1 h2
    simp [h3] at this

/-- Witness for the amended C2: with only 9222 taken, 9223 is available in the
window of 9222. -/
theorem FindAvailablePort_available_of_exists_witness :
    IsPortAvailable allowAll Host.busy9222 (FindAvailablePort allowAll Host.busy9222 9222) = true ∧
    IsWellKnownPort (FindAvailablePort allowAll Host.busy9222 9222) = false :=
  ⟨(FindAvailablePort_available_of_exists allowAll Host.busy9222 9222
      ⟨9223, by decide, by decide, by decide⟩).1,
   (FindAvailablePort_available_of_exists allowAll Host.busy9222 9222
      ⟨9223, by decide, by decide, by decide⟩).2.1⟩

/-! ## Port resolution: lemmas -/

theorem GetPortOverrideFromCommandLine_of_valid (cfg : Config) (sw s : String) (v : Int)
    (h1 : cfg.command_line sw = some s) (h2 : cfg.StringToInt s = some v)
    (h3 : 1 ≤ v) (h4 : v ≤ 65535) : GetPortOverrideFromCommandLine cfg sw = v := by
  have h5 : ¬ v ≤ 0 := by omega
  have h6 : 0 ≤ v := by omega
  simp [GetPortOverrideFromCommandLine, h1, h2, IsPortValid, h4, h5, h6]

theorem GetPortOverrideFromCommandLine_range (cfg : Config) (sw : String) :
    GetPortOverrideFromCommandLine cfg sw = 0 ∨
    (1 ≤ GetPortOverrideFromCommandLine cfg sw ∧ GetPortOverrideFromCommandLine cfg sw ≤ 65535 ∧
      ∃ s, cfg.command_line sw = some s ∧
        cfg.StringToInt s = some (GetPortOverrideFromCommandLine cfg sw)) := by
  cases h1 : cfg.command_line sw with
  | none => simp [GetPortOverrideFromCommandLine, h1]
  | some s =>
    cases h2 : cfg.StringToInt s with
    | none => simp [GetPortOverrideFromCommandLine, h1, h2]
    | some v =>
      by_cases h3 : v ≤ 0
      · simp [GetPortOverrideFromCommandLine, h1, h2, h3]
      · by_cases h4 : v ≤ 65535
        · right
          rw [GetPortOverrideFromCommandLine_of_valid cfg sw s v h1 h2 (by omega) h4]
          exact ⟨by omega, h4, s, rfl, h2⟩
        · left
          have h5 : 65535 < v := by omega
          simp [GetPortOverrideFromCommandLine, h1, h2, IsPortValid, h5]

theorem InitializePortsAndPrefs_eq (cfg : Config) (w : World) :
    InitializePortsAndPrefs cfg w =
      { w with
        cdp_port_ := (resolvedPrefs cfg w.local_state).kCDPServerPort,
        mcp_port_ := (resolvedPrefs cfg w.local_state).kMCPServerPort,
        agent_port_ := (resolvedPrefs cfg w.local_state).kAgentServerPort,
        extension_port_ := (resolvedPrefs cfg w.local_state).kExtensionServerPort,
        mcp_enabled_ := (resolvedPrefs cfg w.local_state).kMCPServerEnabled,
        pref_change_registrar_ := w.pref_change_registrar_ || w.local_state.isSome,
        local_state := w.local_state.map (fun _ => resolvedPrefs cfg w.local_state) } := by
  unfold InitializePortsAndPrefs resolvedPrefs resolvedPort resolvedFlag storedOrDefault storedFlag
  generalize GetPortOverrideFromCommandLine cfg "browseros-mcp-port" = m
  generalize GetPortOverrideFromCommandLine cfg "browseros-cdp-port" = c
  generalize GetPortOverrideFromCommandLine cfg "browseros-agent-port" = a
  generalize GetPortOverrideFromCommandLine cfg "browseros-extension-port" = e
  cases h : w.local_state <;> by_cases hm : m > 0 <;> by_cases hc : c > 0 <;>
    by_cases ha : a > 0 <;> by_cases he : e > 0 <;> simp [hm, hc, ha, he, h]

/-! ## Claims on port resolution -/

/-- C3: for every stored state and every override value `v` in `[1, 65535]`
(so also every such `v` that is neither well-known nor scheme-restricted),
`InitializePortsAndPrefs` sets the port of the overridden switch to exactly `v`,
and an override of the control (MCP) port sets the feature flag to true,
whatever was stored. -/
theorem InitializePortsAndPrefs_override_wins (cfg : Config) (w : World) (s : String) (v : Int)
    (h1 : 1 ≤ v) (h2 : v ≤ 65535) (hs : cfg.StringToInt s = some v) :
    (cfg.command_line "browseros-cdp-port" = some s →
      (InitializePortsAndPrefs cfg w).cdp_port_ = v) ∧
    (cfg.command_line "browseros-mcp-port" = some s →
      (InitializePortsAndPrefs cfg w).mcp_port_ = v ∧
      (InitializePortsAndPrefs cfg w).mcp_enabled_ = true) ∧
    (cfg.command_line "browseros-agent-port" = some s →
      (InitializePortsAndPrefs cfg w).agent_port_ = v) ∧
    (cfg.command_line "browseros-extension-port" = some s →
      (InitializePortsAndPrefs cfg w).extension_port_ = v) := by
  have hv : v > 0 := by omega
  rw [InitializePortsAndPrefs_eq]
  refine ⟨?_, ?_, ?_, ?_⟩ <;> intro h <;>
    simp [resolvedPrefs, resolvedPort, resolvedFlag,
      GetPortOverrideFromCommandLine_of_valid cfg _ s v h hs h1 h2, hv]

/-- Witness for C3: `--browseros-mcp-port=9300` over a store that holds 9223 and
a disabled flag. -/
theorem InitializePortsAndPrefs_override_wins_witness :
    (InitializePortsAndPrefs Config.mcpOverride (World.initial (some Prefs.disabled))).mcp_port_
      = 9300 ∧
    (InitializePortsAndPrefs Config.mcpOverride (World.initial (some Prefs.disabled))).mcp_enabled_
      = true :=
  (InitializePortsAndPrefs_override_wins Config.mcpOverride (World.initial (some Prefs.disabled))
    "9300" 9300 (by decide) (by decide) (by decide)).2.1 (by decide)

/-- C4: `GetPortOverrideFromCommandLine` returns `n` exactly when the switch is
present and its value parses as an integer `n` with `1 ≤ n ≤ 65535`, and 0 in
every other case; when it returns 0 for a switch, `InitializePortsAndPrefs`
leaves that port at its stored-or-default value, and for the control port
leaves the flag at its stored value (true without a store). -/
theorem GetPortOverrideFromCommandLine_spec (cfg : Config) (sw : String) (w : World) :
    (∀ n : Int, (∃ s, cfg.command_line sw = some s ∧ cfg.StringToInt s = some n ∧
        1 ≤ n ∧ n ≤ 65535) ↔ (GetPortOverrideFromCommandLine cfg sw = n ∧ n ≠ 0)) ∧
    ((¬ ∃ s n, cfg.command_line sw = some s ∧ cfg.StringToInt s = some n ∧
        1 ≤ n ∧ n ≤ 65535) ↔ GetPortOverrideFromCommandLine cfg sw = 0) ∧
    (GetPortOverrideFromCommandLine cfg "browseros-cdp-port" = 0 →
      (InitializePortsAndPrefs cfg w).cdp_port_ =
        storedOrDefault w.local_state Prefs.kCDPServerPort cfg.kDefaultCDPPort) ∧
    (GetPortOverrideFromCommandLine cfg "browseros-mcp-port" = 0 →
      (InitializePortsAndPrefs cfg w).mcp_port_ =
        storedOrDefault w.local_state Prefs.kMCPServerPort cfg.kDefaultMCPPort ∧
      (InitializePortsAndPrefs cfg w).mcp_enabled_ = storedFlag w.local_state) ∧
    (GetPortOverrideFromCommandLine cfg "browseros-agent-port" = 0 →
      (InitializePortsAndPrefs cfg w).agent_port_ =
        storedOrDefault w.local_state Prefs.kAgentServerPort cfg.kDefaultAgentPort) ∧
    (GetPortOverrideFromCommandLine cfg "browseros-extension-port" = 0 →
      (InitializePortsAndPrefs cfg w).extension_port_ =
        storedOrDefault w.local_state Prefs.kExtensionServerPort cfg.kDefaultExtensionPort) := by
  refine ⟨?_, ?_, ?_, ?_, ?_, ?_⟩
  · intro n
    constructor
    · rintro ⟨s, a, b, c, d⟩
      exact ⟨GetPortOverrideFromCommandLine_of_valid cfg sw s n a b c d, by omega⟩
    · rintro ⟨a, b⟩
      rcases GetPortOverrideFromCommandLine_range cfg sw with h | ⟨h3, h4, s, h5, h6⟩
      · omega
      · rw [a] at h3 h4 h6
        exact ⟨s, h5, h6, h3, h4⟩
  · constructor
    · intro h
      rcases GetPortOverrideFromCommandLine_range cfg sw with h0 | ⟨h3, h4, s, h5, h6⟩
      · exact h0
      · exact absurd ⟨s, _, h5, h6, h3, h4⟩ h
    · rintro h ⟨s, n, a, b, c, d⟩
      rw [GetPortOverrideFromCommandLine_of_valid cfg sw s n a b c d] at h
      omega
  all_goals
    intro h
    rw [InitializePortsAndPrefs_eq]
    simp [resolvedPrefs, resolvedPort, resolvedFlag, h]

/-- Witness for C4: with an empty command line the override is 0 and the agent
port, stored as 0, falls back to its default; with `--browseros-mcp-port=9300`
the override is 9300. -/
theorem GetPortOverrideFromCommandLine_spec_witness :
    (InitializePortsAndPrefs Config.sample (World.initial (some Prefs.disabled))).agent_port_
      = 9224 ∧
    (InitializePortsAndPrefs Config.sample (World.initial (some Prefs.disabled))).mcp_enabled_
      = false ∧
    GetPortOverrideFromCommandLine Config.mcpOverride "browseros-mcp-port" = 9300 :=
  ⟨(GetPortOverrideFromCommandLine_spec Config.sample "browseros-agent-port"
      (World.initial (some Prefs.disabled))).2.2.2.2.1 (by decide),
   ((GetPortOverrideFromCommandLine_spec Config.sample "browseros-mcp-port"
      (World.initial (some Prefs.disabled))).2.2.2.1 (by decide)).2,
   (((GetPortOverrideFromCommandLine_spec Config.mcpOverride "browseros-mcp-port"
      (World.initial none)).1 9300).1 ⟨"9300", by decide, by decide, by decide, by decide⟩).1⟩

/-- C5: with a settings store present, after `InitializePortsAndPrefs` the
store holds exactly the four in-memory ports and the in-memory flag, and a
second run on the resulting store with no command-line override of any of the
four ports yields the same four ports and the same flag (and leaves the store
as it is), given that each default port constant is positive (or is the same
constant in both runs). -/
theorem InitializePortsAndPrefs_stable (cfg cfg2 : Config) (w w2 : World) (prefs : Prefs)
    (hstore : w.local_state = some prefs)
    (hcdp : 0 < cfg.kDefaultCDPPort ∨ cfg2.kDefaultCDPPort = cfg.kDefaultCDPPort)
    (hmcp : 0 < cfg.kDefaultMCPPort ∨ cfg2.kDefaultMCPPort = cfg.kDefaultMCPPort)
    (hagent : 0 < cfg.kDefaultAgentPort ∨ cfg2.kDefaultAgentPort = cfg.kDefaultAgentPort)
    (hext : 0 < cfg.kDefaultExtensionPort ∨
      cfg2.kDefaultExtensionPort = cfg.kDefaultExtensionPort)
    (hno_cdp : GetPortOverrideFromCommandLine cfg2 "browseros-cdp-port" = 0)
    (hno_mcp : GetPortOverrideFromCommandLine cfg2 "browseros-mcp-port" = 0)
    (hno_agent : GetPortOverrideFromCommandLine cfg2 "browseros-agent-port" = 0)
    (hno_ext : GetPortOverrideFromCommandLine cfg2 "browseros-extension-port" = 0)
    (hnext : w2.local_state = (InitializePortsAndPrefs cfg w).local_state) :
    (InitializePortsAndPrefs cfg w).local_state = some
      { kCDPServerPort := (InitializePortsAndPrefs cfg w).cdp_port_,
        kMCPServerPort := (InitializePortsAndPrefs cfg w).mcp_port_,
        kAgentServerPort := (InitializePortsAndPrefs cfg w).agent_port_,
        kExtensionServerPort := (InitializePortsAndPrefs cfg w).extension_port_,
        kMCPServerEnabled := (InitializePortsAndPrefs cfg w).mcp_enabled_ } ∧
    (InitializePortsAndPrefs cfg2 w2).cdp_port_ = (InitializePortsAndPrefs cfg w).cdp_port_ ∧
    (InitializePortsAndPrefs cfg2 w2).mcp_port_ = (InitializePortsAndPrefs cfg w).mcp_port_ ∧
    (InitializePortsAndPrefs cfg2 w2).agent_port_ = (InitializePortsAndPrefs cfg w).agent_port_ ∧
    (InitializePortsAndPrefs cfg2 w2).extension_port_ =
      (InitializePortsAndPrefs cfg w).extension_port_ ∧
    (InitializePortsAndPrefs cfg2 w2).mcp_enabled_ =
      (InitializePortsAndPrefs cfg w).mcp_enabled_ ∧
    (InitializePortsAndPrefs cfg2 w2).local_state = (InitializePortsAndPrefs cfg w).local_state := by
  have key : ∀ c p d d2 : Int, (0 < d ∨ d2 = d) →
      (if (if 0 < c then c else if p ≤ 0 then d else p) ≤ 0 then d2
        else if 0 < c then c else if p ≤ 0 then d else p) =
      if 0 < c then c else if p ≤ 0 then d else p := by
    intro c p d d2 hd
    split_ifs <;> first | rfl | omega
  rw [InitializePortsAndPrefs_eq cfg2 w2, hnext, InitializePortsAndPrefs_eq cfg w, hstore]
  simp only [Option.map_some', resolvedPrefs, resolvedPort, resolvedFlag, hno_cdp, hno_mcp,
    hno_agent, hno_ext, storedOrDefault, storedFlag, gt_iff_lt, lt_self_iff_false, if_false,
    key _ _ _ _ hcdp, key _ _ _ _ hmcp, key _ _ _ _ hagent, key _ _ _ _ hext, and_self]

/-- Witness for C5: a first run with `--browseros-mcp-port=9300` over a store
with a disabled flag, then a run of a fresh manager without overrides on the
store the first run left. -/
theorem InitializePortsAndPrefs_stable_witness :
    (InitializePortsAndPrefs Config.sample
        (World.initial (InitializePortsAndPrefs Config.mcpOverride
          (World.initial (some Prefs.disabled))).local_state)).mcp_port_ =
      (InitializePortsAndPrefs Config.mcpOverride
        (World.initial (some Prefs.disabled))).mcp_port_ ∧
    (InitializePortsAndPrefs Config.sample
        (World.initial (InitializePortsAndPrefs Config.mcpOverride
          (World.initial (some Prefs.disabled))).local_state)).mcp_enabled_ =
      (InitializePortsAndPrefs Config.mcpOverride
        (World.initial (some Prefs.disabled))).mcp_enabled_ :=
  ⟨(InitializePortsAndPrefs_stable Config.mcpOverride Config.sample
      (World.initial (some Prefs.disabled)) _ Prefs.disabled rfl (Or.inl (by decide))
      (Or.inl (by decide)) (Or.inl (by decide)) (Or.inl (by decide)) rfl rfl rfl rfl rfl).2.2.1,
   (InitializePortsAndPrefs_stable Config.mcpOverride Config.sample
      (World.initial (some Prefs.disabled)) _ Prefs.disabled rfl (Or.inl (by decide))
      (Or.inl (by decide)) (Or.inl (by decide)) (Or.inl (by decide)) rfl rfl rfl rfl rfl).2.2.2.2.2.1⟩

/-! ## The lifecycle: lemmas -/

@[simp]
theorem StopCDPServer_is_running (w : World) :
    (StopCDPServer w).is_running_ = w.is_running_ := by
  unfold StopCDPServer; split_ifs <;> rfl

@[simp]
theorem StopCDPServer_process (w : World) :
    (StopCDPServer w).process_ = w.process_ := by
  unfold StopCDPServer; split_ifs <;> rfl

@[simp]
theorem InitializePortsAndPrefs_is_running (cfg : Config) (w : World) :
    (InitializePortsAndPrefs cfg w).is_running_ = w.is_running_ := by
  rw [InitializePortsAndPrefs_eq]

@[simp]
theorem InitializePortsAndPrefs_process (cfg : Config) (w : World) :
    (InitializePortsAndPrefs cfg w).process_ = w.process_ := by
  rw [InitializePortsAndPrefs_eq]

theorem RunningHasProcess_TerminateBrowserOSProcess (w : World) (h : RunningHasProcess w) :
    RunningHasProcess (TerminateBrowserOSProcess w) := by
  unfold TerminateBrowserOSProcess RunningHasProcess at *
  cases hp : w.process_ <;> simp_all

theorem RunningHasProcess_OnProcessLaunched (w : World) (process : Option Nat)
    (h : RunningHasProcess w) : RunningHasProcess (OnProcessLaunched w process) := by
  unfold OnProcessLaunched RunningHasProcess SendMCPControlRequest at *
  cases process <;> simp_all
  split_ifs <;> simp_all

theorem RunningHasProcess_Start (cfg : Config) (host : Host) (w : World)
    (h : RunningHasProcess w) : RunningHasProcess (Start cfg host w) := by
  unfold Start RunningHasProcess StartCDPServer LaunchBrowserOSProcess at *
  split_ifs <;> simp_all

theorem RunningHasProcess_Stop (w : World) (h : RunningHasProcess w) :
    RunningHasProcess (Stop w) := by
  unfold Stop
  split_ifs
  · exact h
  · have := RunningHasProcess_TerminateBrowserOSProcess
      { w with health_check_timer_ := false, process_check_timer_ := false } h
    unfold RunningHasProcess at *
    simpa using this

theorem RunningHasProcess_RestartBrowserOSProcess (w : World) (h : RunningHasProcess w) :
    RunningHasProcess (RestartBrowserOSProcess w) := by
  have := RunningHasProcess_TerminateBrowserOSProcess { w with process_check_timer_ := false } h
  unfold RestartBrowserOSProcess LaunchBrowserOSProcess RunningHasProcess at *
  simpa using this

theorem RunningHasProcess_OnProcessExited (cfg : Config) (host : Host) (w : World)
    (exit_code : Int) : RunningHasProcess (OnProcessExited cfg host w exit_code) := by
  have h1 : RunningHasProcess (StopCDPServer { w with is_running_ := false }) := by
    unfold RunningHasProcess; simp
  unfold OnProcessExited
  split_ifs
  · exact RunningHasProcess_Start cfg host _ h1
  · exact h1

theorem OnHealthCheckComplete_not_running (host : Host) (w : World) (headers : Option Int)
    (h : w.is_running_ = false) : OnHealthCheckComplete host w headers = w := by
  simp [OnHealthCheckComplete, h]

theorem OnHealthCheckComplete_healthy (host : Host) (w : World) (h : w.is_running_ = true) :
    OnHealthCheckComplete host w (some 200) =
      if w.init_request_sent_ = true then w
      else SendInitRequest host { w with init_request_sent_ := true } := by
  cases hs : w.init_request_sent_ <;> simp [OnHealthCheckComplete, h, hs]

theorem OnHealthCheckComplete_unhealthy (host : Host) (w : World) (headers : Option Int)
    (h : w.is_running_ = true) (hh : headers ≠ some 200) :
    OnHealthCheckComplete host w headers = RestartBrowserOSProcess w := by
  cases headers with
  | none => simp [OnHealthCheckComplete, h]
  | some code =>
    have hc : code ≠ 200 := fun e => hh (by rw [e])
    simp [OnHealthCheckComplete, h, hc]

theorem RunningHasProcess_OnHealthCheckComplete (host : Host) (w : World) (headers : Option Int)
    (h : RunningHasProcess w) : RunningHasProcess (OnHealthCheckComplete host w headers) := by
  cases hr : w.is_running_ with
  | false => rw [OnHealthCheckComplete_not_running host w headers hr]; exact h
  | true =>
    by_cases hh : headers = some 200
    · subst hh
      rw [OnHealthCheckComplete_healthy host w hr]
      unfold SendInitRequest RunningHasProcess at *
      split_ifs <;> simp_all
    · rw [OnHealthCheckComplete_unhealthy host w headers hr hh]
      exact RunningHasProcess_RestartBrowserOSProcess w h

theorem RunningHasProcess_OnMCPEnabledChanged (w : World) (h : RunningHasProcess w) :
    RunningHasProcess (OnMCPEnabledChanged w) := by
  unfold OnMCPEnabledChanged SendMCPControlRequest RunningHasProcess at *
  cases hl : w.local_state <;> simp_all
  split_ifs <;> simp_all

theorem RunningHasProcess_step (cfg : Config) (host : Host) (w : World) (ev : Event)
    (h : RunningHasProcess w) : RunningHasProcess (step cfg host w ev) := by
  cases ev with
  | Start => exact RunningHasProcess_Start cfg host w h
  | Stop => exact RunningHasProcess_Stop w h
  | ProcessLaunched process =>
    simp only [step]
    split_ifs
    · exact h
    · exact RunningHasProcess_OnProcessLaunched _ process h
  | HealthCheckTimer =>
    simp only [step, CheckServerHealth]
    split_ifs
    · exact h
    · exact RunningHasProcess_RestartBrowserOSProcess w h
    · exact h
    · exact h
  | ProcessCheckTimer exited =>
    simp only [step, CheckProcessStatus]
    split_ifs
    · exact h
    · cases exited with
      | none => exact h
      | some exit_code => exact RunningHasProcess_OnProcessExited cfg host w exit_code
    · exact h
  | HealthCheckComplete headers =>
    simp only [step]
    split_ifs
    · exact h
    · exact RunningHasProcess_OnHealthCheckComplete host _ headers h
  | SetMCPEnabledPref value =>
    simp only [step]
    cases hl : w.local_state with
    | none => exact h
    | some prefs =>
      simp only
      split_ifs
      · exact RunningHasProcess_OnMCPEnabledChanged _ h
      · exact h

theorem RunningHasProcess_of_Reachable (cfg : Config) (w : World) (h : Reachable cfg w) :
    RunningHasProcess w := by
  induction h with
  | initial local_state => intro h; simp [World.initial] at h
  | step host w ev _ ih => exact RunningHasProcess_step cfg host w ev ih

theorem Reachable_run (cfg : Config) (host : Host) (events : List Event) :
    ∀ w, Reachable cfg w → Reachable cfg (run cfg host w events) := by
  induction events with
  | nil => intro w h; exact h
  | cons ev rest ih => intro w h; exact ih _ (Reachable.step host w ev h)

theorem SendInitRequest_is_running (host : Host) (w : World) :
    (SendInitRequest host w).is_running_ = w.is_running_ := by
  unfold SendInitRequest; split_ifs <;> rfl

theorem SendInitRequest_init_request_sent (host : Host) (w : World) :
    (SendInitRequest host w).init_request_sent_ = w.init_request_sent_ := by
  unfold SendInitRequest; split_ifs <;> rfl

theorem SendInitRequest_initRequestCount (host : Host) (w : World) :
    initRequestCount (SendInitRequest host w).log ≤ initRequestCount w.log + 1 := by
  unfold SendInitRequest initRequestCount
  split_ifs <;> simp [List.countP_append, Effect.isInitRequest]

/-- Once the flag is set, a healthy completion changes nothing. -/
theorem OnHealthCheckComplete_healthy_sent (host : Host) (w : World)
    (h : w.init_request_sent_ = true) : OnHealthCheckComplete host w (some 200) = w := by
  cases hr : w.is_running_ with
  | false => exact OnHealthCheckComplete_not_running host w _ hr
  | true => rw [OnHealthCheckComplete_healthy host w hr]; simp [h]

theorem healthy_completions_sent (hosts : List Host) :
    ∀ w : World, w.init_request_sent_ = true →
      hosts.foldl (fun a host => OnHealthCheckComplete host a (some 200)) w = w := by
  induction hosts with
  | nil => intro w _; rfl
  | cons host rest ih =>
    intro w h
    simp only [List.foldl_cons]
    rw [OnHealthCheckComplete_healthy_sent host w h]
    exact ih w h

theorem Start_not_running (cfg : Config) (host : Host) (w : World)
    (h1 : w.is_running_ = false) (h2 : cfg.command_line "disable-browseros-server" = none) :
    (Start cfg host w).is_running_ = false ∧
    launchCount (Start cfg host w).log = launchCount w.log + 1 ∧
    (Start cfg host w).pending_launches = w.pending_launches + 1 := by
  simp [Start, h1, h2, StartCDPServer, LaunchBrowserOSProcess, launchCount, List.countP_append,
    Effect.isPostLaunch, InitializePortsAndPrefs_eq]

/-- Whatever the state, a `Start()` made while a launch is pending and the
running flag is clear posts another launch. -/
theorem Start_Start_launches_twice (cfg : Config) (host1 host2 : Host) (w : World)
    (h1 : w.is_running_ = false) (h2 : cfg.command_line "disable-browseros-server" = none) :
    launchCount (Start cfg host2 (Start cfg host1 w)).log = launchCount w.log + 2 := by
  obtain ⟨a, b, _⟩ := Start_not_running cfg host1 w h1 h2
  obtain ⟨_, d, _⟩ := Start_not_running cfg host2 _ a h2
  rw [d, b]

/-- A `Start()` on a manager whose running flag is set does nothing. -/
theorem Start_running (cfg : Config) (host : Host) (w : World) (h : w.is_running_ = true) :
    Start cfg host w = w := by
  simp [Start, h]

/-! ## Claims on the lifecycle -/

/-- C6, evaluated on the code: on a fresh manager a first `Start()` posts a
launch and leaves the running flag clear until the launch result arrives; a
second `Start()` made before that result posts a second launch.  When both
results arrive the handle of the first process is overwritten without ever
being terminated. -/
theorem Start_while_starting_launches_again :
    (run Config.sample Host.allFree World.fresh [Event.Start]).is_running_ = false ∧
    (run Config.sample Host.allFree World.fresh [Event.Start]).pending_launches = 1 ∧
    (run Config.sample Host.allFree World.fresh [Event.Start, Event.Start]).pending_launches = 2 ∧
    launchCount (run Config.sample Host.allFree World.fresh [Event.Start, Event.Start]).log = 2 ∧
    (run Config.sample Host.allFree World.fresh
      [Event.Start, Event.Start, Event.ProcessLaunched (some 1),
       Event.ProcessLaunched (some 2)]).process_ = some 2 ∧
    terminateCount (run Config.sample Host.allFree World.fresh
      [Event.Start, Event.Start, Event.ProcessLaunched (some 1),
       Event.ProcessLaunched (some 2)]).log = 0 := by
  decide

/-- C7, evaluated on the code: `Stop()` called after `Start()` but before the
launch result is delivered returns at once, leaving the health timer active and
the launch pending; the launch result then makes `IsRunning()` true and starts
the liveness timer, with no `Start()` after the `Stop()`.  The same happens when
`Stop()` falls between a health-check-triggered restart and its launch
result. -/
theorem Stop_while_starting_does_nothing :
    (run Config.sample Host.allFree World.fresh [Event.Start, Event.Stop]).health_check_timer_
      = true ∧
    (run Config.sample Host.allFree World.fresh [Event.Start, Event.Stop]).pending_launches = 1 ∧
    IsRunning (run Config.sample Host.allFree World.fresh
      [Event.Start, Event.Stop, Event.ProcessLaunched (some 1)]) = true ∧
    (run Config.sample Host.allFree World.fresh
      [Event.Start, Event.Stop, Event.ProcessLaunched (some 1)]).process_check_timer_ = true ∧
    (run Config.sample Host.allFree World.fresh
      [Event.Start, Event.Stop, Event.ProcessLaunched (some 1)]).health_check_timer_ = true ∧
    IsRunning (run Config.sample Host.allFree World.fresh
      [Event.Start, Event.ProcessLaunched (some 1), Event.HealthCheckTimer,
       Event.HealthCheckComplete none, Event.Stop, Event.ProcessLaunched (some 2)]) = true := by
  decide

/-- C8, evaluated on the code: the first process is launched, passes a health
check and receives the init handshake; the liveness poll then sees it exit with
code 1 and relaunches.  When the second process becomes running the
init-handshake-sent flag is still true, and the next health check with status
200 sends no handshake: one init request in the log for two processes. -/
theorem crash_relaunch_keeps_init_request_sent :
    initRequestCount (run Config.sample Host.allFree World.fresh
      [Event.Start, Event.ProcessLaunched (some 1), Event.HealthCheckTimer,
       Event.HealthCheckComplete (some 200)]).log = 1 ∧
    launchCount (run Config.sample Host.allFree World.fresh
      [Event.Start, Event.ProcessLaunched (some 1), Event.HealthCheckTimer,
       Event.HealthCheckComplete (some 200), Event.ProcessCheckTimer (some 1)]).log = 2 ∧
    (run Config.sample Host.allFree World.fresh
      [Event.Start, Event.ProcessLaunched (some 1), Event.HealthCheckTimer,
       Event.HealthCheckComplete (some 200), Event.ProcessCheckTimer (some 1),
       Event.ProcessLaunched (some 2)]).process_ = some 2 ∧
    IsRunning (run Config.sample Host.allFree World.fresh
      [Event.Start, Event.ProcessLaunched (some 1), Event.HealthCheckTimer,
       Event.HealthCheckComplete (some 200), Event.ProcessCheckTimer (some 1),
       Event.ProcessLaunched (some 2)]) = true ∧
    (run Config.sample Host.allFree World.fresh
      [Event.Start, Event.ProcessLaunched (some 1), Event.HealthCheckTimer,
       Event.HealthCheckComplete (some 200), Event.ProcessCheckTimer (some 1),
       Event.ProcessLaunched (some 2)]).init_request_sent_ = true ∧
    initRequestCount (run Config.sample Host.allFree World.fresh
      [Event.Start, Event.ProcessLaunched (some 1), Event.HealthCheckTimer,
       Event.HealthCheckComplete (some 200), Event.ProcessCheckTimer (some 1),
       Event.ProcessLaunched (some 2), Event.HealthCheckTimer,
       Event.HealthCheckComplete (some 200)]).log = 1 := by
  decide

/-- One event that keeps the process, on a running manager with a valid handle:
the manager stays running on the same handle, no sent handshake is lost from
the log, and the handshake budget does not grow. -/
theorem step_keepsProcess (cfg : Config) (host : Host) (w : World) (ev : Event)
    (hrun : w.is_running_ = true) (hp : w.process_.isSome = true)
    (hk : ev.keepsProcess = true) :
    (step cfg host w ev).is_running_ = true ∧
    (step cfg host w ev).process_ = w.process_ ∧
    initRequestCount w.log ≤ initRequestCount (step cfg host w ev).log ∧
    initBudget (step cfg host w ev) ≤ initBudget w := by
  cases ev with
  | Start => simp [step, Start, hrun]
  | Stop => simp [Event.keepsProcess] at hk
  | ProcessLaunched process =>
    cases process with
    | some pid => simp [Event.keepsProcess] at hk
    | none =>
      simp only [step, OnProcessLaunched, StopCDPServer]
      split_ifs <;>
        simp [hrun, initBudget, initRequestCount, List.countP_append, Effect.isInitRequest]
  | HealthCheckTimer =>
    simp only [step]
    split_ifs
    · simp [CheckServerHealth, hrun, hp, initBudget, initRequestCount, List.countP_append,
        Effect.isInitRequest]
    · simp [hrun]
  | ProcessCheckTimer exited =>
    cases exited with
    | some c => simp [Event.keepsProcess] at hk
    | none =>
      simp only [step]
      split_ifs <;> simp [CheckProcessStatus, hrun, hp]
  | HealthCheckComplete headers =>
    cases headers with
    | none => simp [Event.keepsProcess] at hk
    | some code =>
      have hc : code = 200 := by simpa [Event.keepsProcess] using hk
      subst hc
      simp only [step]
      split_ifs
      · simp [hrun]
      · rw [OnHealthCheckComplete_healthy host _ (by simpa using hrun)]
        cases hs : w.init_request_sent_ <;>
          cases ha : host.install_id_available <;>
          simp [hs, ha, SendInitRequest, hrun, initBudget, initRequestCount, List.countP_append,
            Effect.isInitRequest]
  | SetMCPEnabledPref value =>
    simp only [step]
    cases hl : w.local_state with
    | none => simp [hrun]
    | some prefs =>
      simp only
      split_ifs
      · unfold OnMCPEnabledChanged SendMCPControlRequest
        simp only [hrun]
        split_ifs <;>
          simp_all [initBudget, initRequestCount, List.countP_append, Effect.isInitRequest]
      · simp [initBudget, hrun]

/-- A sequence of events that keep the process, on a running manager with a
valid handle. -/
theorem run_keepsProcess (cfg : Config) (host : Host) (events : List Event) :
    ∀ w : World, w.is_running_ = true → w.process_.isSome = true →
      (∀ ev ∈ events, ev.keepsProcess = true) →
      (run cfg host w events).is_running_ = true ∧
      (run cfg host w events).process_ = w.process_ ∧
      initRequestCount w.log ≤ initRequestCount (run cfg host w events).log ∧
      initBudget (run cfg host w events) ≤ initBudget w := by
  induction events with
  | nil => intro w hrun _ _; exact ⟨hrun, rfl, le_refl _, le_refl _⟩
  | cons ev rest ih =>
    intro w hrun hp hk
    obtain ⟨a, b, c, d⟩ := step_keepsProcess cfg host w ev hrun hp (hk ev (by simp))
    obtain ⟨a', b', c', d'⟩ := ih (step cfg host w ev) a (by rw [b]; exact hp)
      (fun e he => hk e (by simp [he]))
    exact ⟨a', by rw [← b]; exact b', le_trans c c', le_trans d' d⟩

theorem initRequestCount_le_initBudget (w : World) : initRequestCount w.log ≤ initBudget w := by
  unfold initBudget; omega

theorem initBudget_le (w : World) : initBudget w ≤ initRequestCount w.log + 1 := by
  unfold initBudget; split_ifs <;> omega

theorem initBudget_of_sent (w : World) (h : w.init_request_sent_ = true) :
    initBudget w = initRequestCount w.log := by
  simp [initBudget, h]

theorem run_append (cfg : Config) (host : Host) (w : World) (events1 events2 : List Event) :
    run cfg host w (events1 ++ events2) = run cfg host (run cfg host w events1) events2 := by
  simp [run, List.foldl_append]

/-- What a delivered completion with status 200 does to a running manager. -/
theorem step_HealthCheckComplete_healthy (cfg : Config) (host : Host) (w : World)
    (hrun : w.is_running_ = true) (hpend : 0 < w.pending_health_checks) :
    step cfg host w (Event.HealthCheckComplete (some 200)) =
      if w.init_request_sent_ = true then
        { w with pending_health_checks := w.pending_health_checks - 1 }
      else SendInitRequest host
        { w with pending_health_checks := w.pending_health_checks - 1,
                 init_request_sent_ := true } := by
  have h0 : w.pending_health_checks ≠ 0 := by omega
  simp only [step, h0, if_false]
  rw [OnHealthCheckComplete_healthy host _ (by simpa using hrun)]

/-- C9: over one process lifetime the init handshake is sent at most once.  Take
a reachable running manager and any sequence of events that keep the process
(timer ticks, completions with status 200, flag changes, failed launch replies,
redundant `Start()` calls) with a completion with status 200 somewhere in it.  The manager stays
running on the same handle and the log gains at most one init request, none if
the flag was already set.  The completion, when a health request is pending,
invokes `SendInitRequest` exactly when the flag is clear and leaves the flag
set; no event after it, further completions with status 200 included, sends
another handshake. -/
theorem init_handshake_once_per_process_lifetime (cfg : Config) (host : Host) (w : World)
    (events1 events2 : List Event)
    (hreach : Reachable cfg w) (hrun : w.is_running_ = true)
    (hk1 : ∀ ev ∈ events1, ev.keepsProcess = true)
    (hk2 : ∀ ev ∈ events2, ev.keepsProcess = true) :
    (run cfg host w (events1 ++ Event.HealthCheckComplete (some 200) :: events2)).is_running_
      = true ∧
    (run cfg host w (events1 ++ Event.HealthCheckComplete (some 200) :: events2)).process_
      = w.process_ ∧
    initRequestCount
        (run cfg host w (events1 ++ Event.HealthCheckComplete (some 200) :: events2)).log ≤
      initRequestCount w.log + 1 ∧
    (w.init_request_sent_ = true →
      initRequestCount
          (run cfg host w (events1 ++ Event.HealthCheckComplete (some 200) :: events2)).log =
        initRequestCount w.log) ∧
    (0 < (run cfg host w events1).pending_health_checks →
      ((run cfg host w events1).init_request_sent_ = false →
        step cfg host (run cfg host w events1) (Event.HealthCheckComplete (some 200)) =
          SendInitRequest host
            { run cfg host w events1 with
              pending_health_checks := (run cfg host w events1).pending_health_checks - 1,
              init_request_sent_ := true }) ∧
      ((run cfg host w events1).init_request_sent_ = true →
        (step cfg host (run cfg host w events1) (Event.HealthCheckComplete (some 200))).log =
          (run cfg host w events1).log) ∧
      (step cfg host (run cfg host w events1)
        (Event.HealthCheckComplete (some 200))).init_request_sent_ = true ∧
      initRequestCount
          (run cfg host w (events1 ++ Event.HealthCheckComplete (some 200) :: events2)).log =
        initRequestCount
          (step cfg host (run cfg host w events1) (Event.HealthCheckComplete (some 200))).log) := by
  have hp := RunningHasProcess_of_Reachable cfg w hreach hrun
  have hall : ∀ ev ∈ events1 ++ Event.HealthCheckComplete (some 200) :: events2,
      ev.keepsProcess = true := by
    intro ev hev
    rcases List.mem_append.mp hev with h | h
    · exact hk1 ev h
    · rcases List.mem_cons.mp h with h | h
      · rw [h]; rfl
      · exact hk2 ev h
  obtain ⟨a, b, c, d⟩ := run_keepsProcess cfg host _ w hrun hp hall
  refine ⟨a, b, ?_, ?_, ?_⟩
  · exact le_trans (initRequestCount_le_initBudget _) (le_trans d (initBudget_le w))
  · intro hs
    rw [initBudget_of_sent w hs] at d
    exact le_antisymm (le_trans (initRequestCount_le_initBudget _) d) c
  · intro hpend
    obtain ⟨a1, b1, _, _⟩ := run_keepsProcess cfg host events1 w hrun hp hk1
    have hstep := step_HealthCheckComplete_healthy cfg host _ a1 hpend
    have hsent : (step cfg host (run cfg host w events1)
        (Event.HealthCheckComplete (some 200))).init_request_sent_ = true := by
      rw [hstep]
      split_ifs with h
      · exact h
      · rw [SendInitRequest_init_request_sent]
    refine ⟨?_, ?_, hsent, ?_⟩
    · intro h
      rw [hstep]; simp [h]
    · intro h
      rw [hstep]; simp [h]
    · obtain ⟨a2, b2, _, _⟩ := step_keepsProcess cfg host _ (Event.HealthCheckComplete (some 200))
        a1 (by rw [b1]; exact hp) rfl
      obtain ⟨_, _, c3, d3⟩ := run_keepsProcess cfg host events2 _ a2
        (by rw [b2, b1]; exact hp) hk2
      rw [initBudget_of_sent _ hsent] at d3
      have hrun_eq : run cfg host w (events1 ++ Event.HealthCheckComplete (some 200) :: events2)
          = run cfg host (step cfg host (run cfg host w events1)
              (Event.HealthCheckComplete (some 200))) events2 := by
        rw [run_append]; rfl
      rw [hrun_eq]
      exact le_antisymm (le_trans (initRequestCount_le_initBudget _) d3) c3

/-- Witness for C9: on the running example manager, three rounds of health
tick and completion with status 200, with a flag change in between, send one
init request. -/
theorem init_handshake_once_per_process_lifetime_witness :
    initRequestCount (run Config.sample Host.allFree World.running
      ([Event.HealthCheckTimer] ++ Event.HealthCheckComplete (some 200) ::
        [Event.HealthCheckTimer, Event.HealthCheckComplete (some 200),
         Event.SetMCPEnabledPref false, Event.HealthCheckTimer,
         Event.HealthCheckComplete (some 200)])).log ≤
      initRequestCount World.running.log + 1 ∧
    initRequestCount (run Config.sample Host.allFree World.running
      ([Event.HealthCheckTimer] ++ Event.HealthCheckComplete (some 200) ::
        [Event.HealthCheckTimer, Event.HealthCheckComplete (some 200),
         Event.SetMCPEnabledPref false, Event.HealthCheckTimer,
         Event.HealthCheckComplete (some 200)])).log =
      initRequestCount (step Config.sample Host.allFree
        (run Config.sample Host.allFree World.running [Event.HealthCheckTimer])
        (Event.HealthCheckComplete (some 200))).log ∧
    initRequestCount (step Config.sample Host.allFree
        (run Config.sample Host.allFree World.running [Event.HealthCheckTimer])
        (Event.HealthCheckComplete (some 200))).log = 1 :=
  ⟨(init_handshake_once_per_process_lifetime Config.sample Host.allFree World.running
      [Event.HealthCheckTimer]
      [Event.HealthCheckTimer, Event.HealthCheckComplete (some 200),
       Event.SetMCPEnabledPref false, Event.HealthCheckTimer,
       Event.HealthCheckComplete (some 200)]
      (Reachable_run Config.sample Host.allFree _ _ (Reachable.initial _)) (by decide)
      (by decide) (by decide)).2.2.1,
   ((init_handshake_once_per_process_lifetime Config.sample Host.allFree World.running
      [Event.HealthCheckTimer]
      [Event.HealthCheckTimer, Event.HealthCheckComplete (some 200),
       Event.SetMCPEnabledPref false, Event.HealthCheckTimer,
       Event.HealthCheckComplete (some 200)]
      (Reachable_run Config.sample Host.allFree _ _ (Reachable.initial _)) (by decide)
      (by decide) (by decide)).2.2.2.2 (by decide)).2.2.2,
   by decide⟩

/-- C10: a health-check completion delivered to a running manager with any
outcome other than status 200 (another status, or no headers) invokes
`RestartBrowserOSProcess` once, which terminates the current process once and
posts one launch; a completion with status 200 terminates nothing and posts no
launch. -/
theorem OnHealthCheckComplete_restarts_once (cfg : Config) (host : Host) (w : World)
    (headers : Option Int) (hreach : Reachable cfg w) (hrun : w.is_running_ = true) :
    (headers ≠ some 200 →
      OnHealthCheckComplete host w headers = RestartBrowserOSProcess w ∧
      ∃ pid, w.process_ = some pid ∧
        (OnHealthCheckComplete host w headers).log =
          w.log ++ [Effect.Terminate pid, Effect.PostDelayedKill pid,
            Effect.PostLaunch (toUint16 w.cdp_port_) (toUint16 w.mcp_port_)
              (toUint16 w.agent_port_) (toUint16 w.extension_port_)] ∧
        terminateCount (OnHealthCheckComplete host w headers).log = terminateCount w.log + 1 ∧
        launchCount (OnHealthCheckComplete host w headers).log = launchCount w.log + 1 ∧
        (OnHealthCheckComplete host w headers).pending_launches = w.pending_launches + 1) ∧
    (headers = some 200 →
      terminateCount (OnHealthCheckComplete host w headers).log = terminateCount w.log ∧
      launchCount (OnHealthCheckComplete host w headers).log = launchCount w.log ∧
      (OnHealthCheckComplete host w headers).pending_launches = w.pending_launches ∧
      (OnHealthCheckComplete host w headers).process_ = w.process_ ∧
      (OnHealthCheckComplete host w headers).is_running_ = true) := by
  constructor
  · intro hh
    refine ⟨OnHealthCheckComplete_unhealthy host w headers hrun hh, ?_⟩
    have hp := RunningHasProcess_of_Reachable cfg w hreach hrun
    obtain ⟨pid, hpid⟩ := Option.isSome_iff_exists.mp hp
    refine ⟨pid, hpid, ?_⟩
    rw [OnHealthCheckComplete_unhealthy host w headers hrun hh]
    simp [RestartBrowserOSProcess, LaunchBrowserOSProcess, TerminateBrowserOSProcess, hpid,
      terminateCount, launchCount, List.countP_append, Effect.isTerminate, Effect.isPostLaunch,
      List.countP_cons]
  · intro hh
    subst hh
    rw [OnHealthCheckComplete_healthy host w hrun]
    unfold SendInitRequest
    split_ifs <;>
      simp_all [terminateCount, launchCount, List.countP_append, Effect.isTerminate,
        Effect.isPostLaunch]

/-- Witness for C10: a completion without headers on a running manager. -/
theorem OnHealthCheckComplete_restarts_once_witness :
    Reachable Config.sample World.running ∧ World.running.is_running_ = true ∧
    OnHealthCheckComplete Host.allFree World.running none =
      RestartBrowserOSProcess World.running :=
  ⟨Reachable_run Config.sample Host.allFree _ _ (Reachable.initial _), by decide,
   ((OnHealthCheckComplete_restarts_once Config.sample Host.allFree World.running none
      (Reachable_run Config.sample Host.allFree _ _ (Reachable.initial _)) (by decide)).1
      (by decide)).1⟩

theorem DisabledStaysIdle_step (cfg : Config) (host : Host) (w : World) (ev : Event)
    (h : DisabledStaysIdle cfg w) : DisabledStaysIdle cfg (step cfg host w ev) := by
  intro hd
  obtain ⟨h1, h2⟩ := h hd
  cases ev with
  | Start => simp [step, Start, h1, hd, h2, InitializePortsAndPrefs_eq]
  | Stop => simp [step, Stop, h1, h2]
  | ProcessLaunched process => simp [step, h1, h2]
  | HealthCheckTimer => simp [step, CheckServerHealth, h1, h2]
  | ProcessCheckTimer exited => simp [step, CheckProcessStatus, h1, h2]
  | HealthCheckComplete headers =>
    simp only [step]
    split_ifs
    · exact ⟨h1, h2⟩
    · simp [OnHealthCheckComplete, h1, h2]
  | SetMCPEnabledPref value =>
    simp only [step]
    cases hl : w.local_state with
    | none => exact ⟨h1, h2⟩
    | some prefs => simp [OnMCPEnabledChanged, h1, h2]

theorem DisabledStaysIdle_of_Reachable (cfg : Config) (w : World) (h : Reachable cfg w) :
    DisabledStaysIdle cfg w := by
  induction h with
  | initial local_state => intro _; simp [World.initial]
  | step host w ev _ ih => exact DisabledStaysIdle_step cfg host w ev ih

theorem StopCDPServer_eq (w : World) :
    StopCDPServer w = { w with cdp_port_ := 0, log := w.log ++ closeLog w.cdp_port_ } := by
  unfold StopCDPServer closeLog
  split_ifs with h
  · cases w; simp_all
  · rfl

theorem launchCount_closeLog (log : List Effect) (cdp_port : Int) :
    launchCount (log ++ closeLog cdp_port) = launchCount log := by
  unfold closeLog launchCount
  split_ifs <;> simp [List.countP_append, Effect.isPostLaunch]

theorem Start_log (cfg : Config) (host : Host) (w : World)
    (h1 : w.is_running_ = false) (h2 : cfg.command_line "disable-browseros-server" = none) :
    ∃ a b c d e, (Start cfg host w).log =
      w.log ++ [Effect.StartRemoteDebuggingServer a, Effect.PostLaunch b c d e] := by
  simp [Start, h1, h2, StartCDPServer, LaunchBrowserOSProcess, InitializePortsAndPrefs_eq]

/-- C11: when the liveness poll sees, in a running state, that the process has
exited with code `c`, the manager stops being running and closes the debug
socket; for `c = 0` it posts no launch, and for `c ≠ 0` it posts exactly one
launch (after reopening the debug socket), within the poll itself. -/
theorem CheckProcessStatus_exited (cfg : Config) (host : Host) (w : World) (c : Int)
    (hreach : Reachable cfg w) (hrun : w.is_running_ = true) :
    CheckProcessStatus cfg host w (some c) = OnProcessExited cfg host w c ∧
    (CheckProcessStatus cfg host w (some c)).is_running_ = false ∧
    IsRunning (CheckProcessStatus cfg host w (some c)) = false ∧
    (c = 0 →
      (CheckProcessStatus cfg host w (some c)).cdp_port_ = 0 ∧
      (CheckProcessStatus cfg host w (some c)).log = w.log ++ closeLog w.cdp_port_ ∧
      launchCount (CheckProcessStatus cfg host w (some c)).log = launchCount w.log ∧
      (CheckProcessStatus cfg host w (some c)).pending_launches = w.pending_launches) ∧
    (c ≠ 0 →
      (∃ p l1 l2 l3 l4, (CheckProcessStatus cfg host w (some c)).log =
        w.log ++ closeLog w.cdp_port_ ++
          [Effect.StartRemoteDebuggingServer p, Effect.PostLaunch l1 l2 l3 l4]) ∧
      launchCount (CheckProcessStatus cfg host w (some c)).log = launchCount w.log + 1 ∧
      (CheckProcessStatus cfg host w (some c)).pending_launches = w.pending_launches + 1) := by
  have hp := RunningHasProcess_of_Reachable cfg w hreach hrun
  have hd : cfg.command_line "disable-browseros-server" = none := by
    cases hc : cfg.command_line "disable-browseros-server" with
    | none => rfl
    | some v =>
      have := (DisabledStaysIdle_of_Reachable cfg w hreach (by simp [hc])).1
      rw [hrun] at this
      exact absurd this (by decide)
  have hcheck : CheckProcessStatus cfg host w (some c) = OnProcessExited cfg host w c := by
    simp [CheckProcessStatus, hrun, hp]
  have hclose := launchCount_closeLog w.log w.cdp_port_
  rw [hcheck]
  by_cases hc : c = 0
  · subst hc
    simp [OnProcessExited, StopCDPServer_eq, IsRunning, hclose]
  · have hw1 : (StopCDPServer { w with is_running_ := false }).is_running_ = false := by simp
    obtain ⟨a, b, d⟩ := Start_not_running cfg host _ hw1 hd
    obtain ⟨p, l1, l2, l3, l4, hlog⟩ := Start_log cfg host _ hw1 hd
    simp only [OnProcessExited, hc, ne_eq, not_false_eq_true, if_true, IsRunning, a,
      Bool.false_and, false_implies, true_and, true_implies]
    refine ⟨⟨p, l1, l2, l3, l4, ?_⟩, ?_, ?_⟩
    · rw [hlog, StopCDPServer_eq]
    · rw [b, StopCDPServer_eq]; exact congrArg (· + 1) hclose
    · rw [d, StopCDPServer_eq]
/-- Witness for C11: the running example manager sees exit code 1 and posts one launch. -/
theorem CheckProcessStatus_exited_witness :
    Reachable Config.sample World.running ∧ World.running.is_running_ = true ∧
    launchCount (CheckProcessStatus Config.sample Host.allFree World.running (some 1)).log =
      launchCount World.running.log + 1 :=
  ⟨Reachable_run Config.sample Host.allFree _ _ (Reachable.initial _), by decide,
   ((CheckProcessStatus_exited Config.sample Host.allFree World.running 1
      (Reachable_run Config.sample Host.allFree _ _ (Reachable.initial _)) (by decide)).2.2.2.2
      (by decide)).2.1⟩

theorem controlRequestCount_closeLog (log : List Effect) (cdp_port : Int) :
    controlRequestCount (log ++ closeLog cdp_port) = controlRequestCount log := by
  unfold closeLog controlRequestCount
  split_ifs <;> simp [List.countP_append, Effect.isControlRequest]

/-- C12: a launch result with an invalid handle delivered to a manager that is
not running closes the debug socket (the debug port becomes 0), leaves the
manager not running, leaves the liveness timer as it was, sends no control
request and posts no launch. -/
theorem OnProcessLaunched_invalid (w : World) (h : w.is_running_ = false) :
    (OnProcessLaunched w none).cdp_port_ = 0 ∧
    (OnProcessLaunched w none).log = w.log ++ closeLog w.cdp_port_ ∧
    (OnProcessLaunched w none).is_running_ = false ∧
    IsRunning (OnProcessLaunched w none) = false ∧
    (OnProcessLaunched w none).process_check_timer_ = w.process_check_timer_ ∧
    controlRequestCount (OnProcessLaunched w none).log = controlRequestCount w.log ∧
    launchCount (OnProcessLaunched w none).log = launchCount w.log ∧
    (OnProcessLaunched w none).pending_launches = w.pending_launches := by
  simp [OnProcessLaunched, StopCDPServer_eq, IsRunning, h, launchCount_closeLog,
    controlRequestCount_closeLog]

/-- Witness for C12: the launch posted by a first `Start()` fails. -/
theorem OnProcessLaunched_invalid_witness :
    (OnProcessLaunched (Start Config.sample Host.allFree World.fresh) none).cdp_port_ = 0 ∧
    (OnProcessLaunched (Start Config.sample Host.allFree World.fresh) none).log =
      (Start Config.sample Host.allFree World.fresh).log ++ [Effect.StopRemoteDebuggingServer] :=
  ⟨(OnProcessLaunched_invalid (Start Config.sample Host.allFree World.fresh) (by decide)).1,
   (OnProcessLaunched_invalid (Start Config.sample Host.allFree World.fresh) (by decide)).2.1⟩

/-- C13: in every reachable state a set running flag comes with a valid
process handle, so `IsRunning()` equals the running flag, and `Stop()` called
with the flag set ends with the flag clear. -/
theorem reachable_running_flag_has_process (cfg : Config) (w : World) (h : Reachable cfg w) :
    (w.is_running_ = true → w.process_.isSome = true) ∧
    IsRunning w = w.is_running_ ∧
    (w.is_running_ = true → (Stop w).is_running_ = false ∧ IsRunning (Stop w) = false) := by
  have hinv := RunningHasProcess_of_Reachable cfg w h
  refine ⟨hinv, ?_, ?_⟩
  · cases hr : w.is_running_ with
    | false => simp [IsRunning, hr]
    | true => simp [IsRunning, hr, hinv hr]
  · intro hr
    obtain ⟨pid, hpid⟩ := Option.isSome_iff_exists.mp (hinv hr)
    simp [Stop, hr, TerminateBrowserOSProcess, hpid, IsRunning]

/-- Witness for C13: the running example manager. -/
theorem reachable_running_flag_has_process_witness :
    Reachable Config.sample World.running ∧ World.running.is_running_ = true ∧
    (Stop World.running).is_running_ = false :=
  ⟨Reachable_run Config.sample Host.allFree _ _ (Reachable.initial _), by decide,
   ((reachable_running_flag_has_process Config.sample World.running
      (Reachable_run Config.sample Host.allFree _ _ (Reachable.initial _))).2.2 (by decide)).1⟩

/-- C14: when a change notification finds the stored flag `b` in a running
manager, a `b` that differs from the in-memory flag becomes the in-memory flag
and exactly one control request carrying `b` is issued; a `b` equal to the
in-memory flag, or a manager that is not running, gives no request and no
change. -/
theorem OnMCPEnabledChanged_spec (w : World) (prefs : Prefs)
    (hstore : w.local_state = some prefs) :
    (w.is_running_ = true → prefs.kMCPServerEnabled ≠ w.mcp_enabled_ →
      OnMCPEnabledChanged w =
        { w with mcp_enabled_ := prefs.kMCPServerEnabled,
                 log := w.log ++ [Effect.MCPControlRequest w.mcp_port_ prefs.kMCPServerEnabled] } ∧
      controlRequestCount (OnMCPEnabledChanged w).log = controlRequestCount w.log + 1) ∧
    (w.is_running_ = true → w.mcp_enabled_ = true → prefs.kMCPServerEnabled = false →
      (OnMCPEnabledChanged w).log = w.log ++ [Effect.MCPControlRequest w.mcp_port_ false]) ∧
    (w.is_running_ = false ∨ prefs.kMCPServerEnabled = w.mcp_enabled_ →
      OnMCPEnabledChanged w = w) := by
  refine ⟨?_, ?_, ?_⟩
  · intro hr hne
    simp [OnMCPEnabledChanged, hr, hstore, hne, SendMCPControlRequest, controlRequestCount,
      List.countP_append, Effect.isControlRequest]
  · intro hr he hb
    simp [OnMCPEnabledChanged, hr, hstore, he, hb, SendMCPControlRequest]
  · rintro (hr | he)
    · simp [OnMCPEnabledChanged, hr]
    · cases hr : w.is_running_ <;> simp [OnMCPEnabledChanged, hr, hstore, he]

/-- Witness for C14: the stored flag goes from true to false while running. -/
theorem OnMCPEnabledChanged_spec_witness :
    (OnMCPEnabledChanged World.runningFlagCleared).log =
      World.runningFlagCleared.log ++ [Effect.MCPControlRequest 9223 false] :=
  (OnMCPEnabledChanged_spec World.runningFlagCleared
    { Prefs.sample with kMCPServerEnabled := false } rfl).2.1 (by decide) (by decide) rfl

/-- C15: a launch result with a valid handle issues exactly one control request,
with `enabled = false`, when the resolved flag is false, and no control request
when the flag is true. -/
theorem OnProcessLaunched_valid_control (w : World) (pid : Nat) :
    (w.mcp_enabled_ = false →
      (OnProcessLaunched w (some pid)).log = w.log ++ [Effect.MCPControlRequest w.mcp_port_ false] ∧
      controlRequestCount (OnProcessLaunched w (some pid)).log = controlRequestCount w.log + 1) ∧
    (w.mcp_enabled_ = true →
      (OnProcessLaunched w (some pid)).log = w.log ∧
      controlRequestCount (OnProcessLaunched w (some pid)).log = controlRequestCount w.log) := by
  constructor <;> intro h <;>
    simp [OnProcessLaunched, h, SendMCPControlRequest, controlRequestCount, List.countP_append,
      Effect.isControlRequest]

/-- Witness for C15: the first launch of a manager whose stored flag is off. -/
theorem OnProcessLaunched_valid_control_witness :
    (OnProcessLaunched (Start Config.sample Host.allFree (World.initial (some Prefs.disabled)))
      (some 1)).log =
    (Start Config.sample Host.allFree (World.initial (some Prefs.disabled))).log ++
      [Effect.MCPControlRequest 9223 false] :=
  ((OnProcessLaunched_valid_control
    (Start Config.sample Host.allFree (World.initial (some Prefs.disabled))) 1).1 (by decide)).1

theorem FindAvailablePort_of_available (allowed : Int → Bool) (host : Host) (p : Int)
    (h : IsPortAvailable allowed host p = true) : FindAvailablePort allowed host p = p := by
  rcases FindAvailablePort_cases allowed host p with ⟨a, _, _, d⟩ | ⟨e, _⟩
  · by_contra hne
    have := d p (le_refl _) (lt_of_le_of_ne a (Ne.symm hne))
    simp [h] at this
  · exact e

theorem FindAvailablePort_range (allowed : Int → Bool) (host : Host) (p : Int)
    (h1 : 1 ≤ p) (h2 : p ≤ 65535) :
    1 ≤ FindAvailablePort allowed host p ∧ FindAvailablePort allowed host p ≤ 65535 := by
  rcases FindAvailablePort_cases allowed host p with ⟨a, b, _, _⟩ | ⟨e, _⟩
  · rw [le_min_iff] at b; exact ⟨by omega, b.2⟩
  · rw [e]; exact ⟨h1, h2⟩

theorem toUint16_of_range (p : Int) (h1 : 0 ≤ p) (h2 : p ≤ 65535) : toUint16 p = p := by
  unfold toUint16; omega

/-- What `RestartBrowserOSProcess` keeps and what its launch carries: the four
ports and the flag stay, and the launch carries the `uint16_t` conversions of
the four ports. -/
theorem RestartBrowserOSProcess_frame (w : World) :
    (RestartBrowserOSProcess w).cdp_port_ = w.cdp_port_ ∧
    (RestartBrowserOSProcess w).mcp_port_ = w.mcp_port_ ∧
    (RestartBrowserOSProcess w).agent_port_ = w.agent_port_ ∧
    (RestartBrowserOSProcess w).extension_port_ = w.extension_port_ ∧
    (RestartBrowserOSProcess w).mcp_enabled_ = w.mcp_enabled_ ∧
    (RestartBrowserOSProcess w).log.getLast? =
      some (Effect.PostLaunch (toUint16 w.cdp_port_) (toUint16 w.mcp_port_)
        (toUint16 w.agent_port_) (toUint16 w.extension_port_)) ∧
    launchCount (RestartBrowserOSProcess w).log = launchCount w.log + 1 := by
  unfold RestartBrowserOSProcess LaunchBrowserOSProcess TerminateBrowserOSProcess
  cases w.process_ <;>
    simp [launchCount, List.countP_append, Effect.isPostLaunch, List.countP_cons]

/-- C16, evaluated on the code: a manager whose store holds debug port 70000 is
started and running; it reports 70000 as its debug port before and after
`RestartBrowserOSProcess`, while the launch the restart posts carries 4464
(70000 converted to `uint16_t`). -/
theorem RestartBrowserOSProcess_launch_differs_from_reported :
    Reachable Config.sample World.runningOutOfRange ∧
    World.runningOutOfRange.is_running_ = true ∧
    World.runningOutOfRange.cdp_port_ = 70000 ∧
    (RestartBrowserOSProcess World.runningOutOfRange).cdp_port_ = 70000 ∧
    (RestartBrowserOSProcess World.runningOutOfRange).log =
      World.runningOutOfRange.log ++
        [Effect.Terminate 1, Effect.PostDelayedKill 1, Effect.PostLaunch 4464 9223 9224 9225] :=
  ⟨Reachable_run Config.sample Host.allFree _ _ (Reachable.initial _),
   by decide, by decide, by decide, by decide⟩

/-- C17, evaluated on the code: with 70000 stored for the debug port, resolution
(`InitializePortsAndPrefs` followed by `StartCDPServer`) leaves the debug port at
70000, outside `[1, 65535]`; the store keeps 70000, and the conversion to
`uint16_t` for the debug server and for the launch arguments turns it into
4464. -/
theorem stored_port_above_range_is_kept :
    (InitializePortsAndPrefs Config.sample (World.initial (some Prefs.outOfRange))).cdp_port_
      = 70000 ∧
    (StartCDPServer Config.sample Host.allFree
      (InitializePortsAndPrefs Config.sample (World.initial (some Prefs.outOfRange)))).cdp_port_
      = 70000 ∧
    ¬ (70000 : Int) ≤ 65535 ∧
    toUint16 70000 = 4464 ∧
    (Start Config.sample Host.allFree (World.initial (some Prefs.outOfRange))).cdp_port_
      = 70000 ∧
    (Start Config.sample Host.allFree (World.initial (some Prefs.outOfRange))).local_state
      = some Prefs.outOfRange ∧
    (Start Config.sample Host.allFree (World.initial (some Prefs.outOfRange))).log =
      [Effect.StartRemoteDebuggingServer 4464, Effect.PostLaunch 4464 9223 9224 9225] := by
  decide
theorem resolvedPort_range (cfg : Config) (sw : String) (local_state : Option Prefs)
    (read : Prefs → Int) (dflt : Int) (hd1 : 1 ≤ dflt) (hd2 : dflt ≤ 65535)
    (hs : ∀ prefs, local_state = some prefs → read prefs ≤ 65535) :
    1 ≤ resolvedPort cfg sw local_state read dflt ∧
    resolvedPort cfg sw local_state read dflt ≤ 65535 := by
  unfold resolvedPort
  split_ifs with h
  · rcases GetPortOverrideFromCommandLine_range cfg sw with h0 | ⟨a, b, _⟩
    · omega
    · exact ⟨a, b⟩
  · unfold storedOrDefault
    cases hl : local_state with
    | none => exact ⟨hd1, hd2⟩
    | some prefs =>
      have := hs prefs hl
      simp only
      split_ifs <;> omega

/-- Where the slip of C17 does not bite: with default constants in `[1, 65535]`
and no stored port above 65535, the four resolved ports lie in `[1, 65535]`. -/
theorem resolved_ports_in_range (cfg : Config) (host : Host) (w : World)
    (hc : 1 ≤ cfg.kDefaultCDPPort ∧ cfg.kDefaultCDPPort ≤ 65535)
    (hm : 1 ≤ cfg.kDefaultMCPPort ∧ cfg.kDefaultMCPPort ≤ 65535)
    (ha : 1 ≤ cfg.kDefaultAgentPort ∧ cfg.kDefaultAgentPort ≤ 65535)
    (he : 1 ≤ cfg.kDefaultExtensionPort ∧ cfg.kDefaultExtensionPort ≤ 65535)
    (hs : ∀ prefs, w.local_state = some prefs →
      prefs.kCDPServerPort ≤ 65535 ∧ prefs.kMCPServerPort ≤ 65535 ∧
      prefs.kAgentServerPort ≤ 65535 ∧ prefs.kExtensionServerPort ≤ 65535) :
    (1 ≤ (StartCDPServer cfg host (InitializePortsAndPrefs cfg w)).cdp_port_ ∧
      (StartCDPServer cfg host (InitializePortsAndPrefs cfg w)).cdp_port_ ≤ 65535) ∧
    (1 ≤ (StartCDPServer cfg host (InitializePortsAndPrefs cfg w)).mcp_port_ ∧
      (StartCDPServer cfg host (InitializePortsAndPrefs cfg w)).mcp_port_ ≤ 65535) ∧
    (1 ≤ (StartCDPServer cfg host (InitializePortsAndPrefs cfg w)).agent_port_ ∧
      (StartCDPServer cfg host (InitializePortsAndPrefs cfg w)).agent_port_ ≤ 65535) ∧
    (1 ≤ (StartCDPServer cfg host (InitializePortsAndPrefs cfg w)).extension_port_ ∧
      (StartCDPServer cfg host (InitializePortsAndPrefs cfg w)).extension_port_ ≤ 65535) := by
  rw [InitializePortsAndPrefs_eq]
  simp only [StartCDPServer, resolvedPrefs]
  refine ⟨?_, ?_, ?_, ?_⟩
  · have := resolvedPort_range cfg "browseros-cdp-port" w.local_state Prefs.kCDPServerPort _
      hc.1 hc.2 (fun p hp => (hs p hp).1)
    exact FindAvailablePort_range _ host _ this.1 this.2
  · have := resolvedPort_range cfg "browseros-mcp-port" w.local_state Prefs.kMCPServerPort _
      hm.1 hm.2 (fun p hp => (hs p hp).2.1)
    exact FindAvailablePort_range _ host _ this.1 this.2
  · have := resolvedPort_range cfg "browseros-agent-port" w.local_state Prefs.kAgentServerPort _
      ha.1 ha.2 (fun p hp => (hs p hp).2.2.1)
    exact FindAvailablePort_range _ host _ this.1 this.2
  · have := resolvedPort_range cfg "browseros-extension-port" w.local_state
      Prefs.kExtensionServerPort _ he.1 he.2 (fun p hp => (hs p hp).2.2.2)
    exact FindAvailablePort_range _ host _ this.1 this.2

theorem Start_eq_of_not_running (cfg : Config) (host : Host) (w : World)
    (h1 : w.is_running_ = false) (h2 : cfg.command_line "disable-browseros-server" = none) :
    Start cfg host w =
      { LaunchBrowserOSProcess (StartCDPServer cfg host (InitializePortsAndPrefs cfg w)) with
        health_check_timer_ := true } := by
  simp [Start, h1, h2]

/-- C18, refuted as stated: with 9222 taken on the IPv4 loopback, after
`Start()` the store holds 9222 as the debug port while the manager reports 9223
and passes 9223 to the companion. -/
theorem Start_store_differs_from_reported_port :
    (Start Config.sample Host.busy9222 World.fresh).local_state = some Prefs.sample ∧
    Prefs.sample.kCDPServerPort = 9222 ∧
    (Start Config.sample Host.busy9222 World.fresh).cdp_port_ = 9223 ∧
    (Start Config.sample Host.busy9222 World.fresh).log =
      [Effect.StartRemoteDebuggingServer 9223, Effect.PostLaunch 9223 9223 9224 9225] := by
  decide

theorem FindAvailablePort_eq_self_iff (allowed : Int → Bool) (host : Host) (p : Int) :
    FindAvailablePort allowed host p = p ↔ keptByProbe allowed host p := by
  unfold keptByProbe
  constructor
  · intro h
    rcases FindAvailablePort_cases allowed host p with ⟨_, _, c, _⟩ | ⟨_, d⟩
    · left; rw [h] at c; exact c
    · right; exact d
  · rintro (h | h)
    · exact FindAvailablePort_of_available allowed host p h
    · rcases FindAvailablePort_cases allowed host p with ⟨a, b, c, _⟩ | ⟨e, _⟩
      · have := h _ a b
        simp [c] at this
      · exact e

theorem IsPortAvailable_range (allowed : Int → Bool) (host : Host) (p : Int)
    (h : IsPortAvailable allowed host p = true) : 1024 ≤ p ∧ p ≤ 65535 := by
  simp only [IsPortAvailable, IsPortValid, IsWellKnownPort] at h
  by_cases k1 : 0 ≤ p <;> by_cases k2 : p ≤ 65535 <;> by_cases k3 : p < 1024 <;>
    simp_all

/-- C18, amended: after `Start()` has resolved the ports over a settings store,
whatever the availability of the loopback ports, the store holds the four ports
produced by `InitializePortsAndPrefs`; each port the manager reports is
`FindAvailablePort` of the stored value of that port; the launch posted carries
the four reported ports (converted to `uint16_t`, which leaves every port in
`[0, 65535]` as it is); the reported port equals the stored one exactly when the
stored one is available or no port of its window is; and for each port whose
stored value is available, the stored value, the reported port and the launch
argument are equal. -/
theorem Start_store_reported_launched (cfg : Config) (host : Host) (w : World)
    (prefs : Prefs) (hstore : w.local_state = some prefs) (hrun : w.is_running_ = false)
    (hd : cfg.command_line "disable-browseros-server" = none) :
    (Start cfg host w).local_state = some
      { kCDPServerPort := (InitializePortsAndPrefs cfg w).cdp_port_,
        kMCPServerPort := (InitializePortsAndPrefs cfg w).mcp_port_,
        kAgentServerPort := (InitializePortsAndPrefs cfg w).agent_port_,
        kExtensionServerPort := (InitializePortsAndPrefs cfg w).extension_port_,
        kMCPServerEnabled := (InitializePortsAndPrefs cfg w).mcp_enabled_ } ∧
    ((Start cfg host w).cdp_port_ = FindAvailablePort cfg.IsPortAllowedForScheme host
        (InitializePortsAndPrefs cfg w).cdp_port_ ∧
      (Start cfg host w).mcp_port_ = FindAvailablePort cfg.IsPortAllowedForScheme host
        (InitializePortsAndPrefs cfg w).mcp_port_ ∧
      (Start cfg host w).agent_port_ = FindAvailablePort cfg.IsPortAllowedForScheme host
        (InitializePortsAndPrefs cfg w).agent_port_ ∧
      (Start cfg host w).extension_port_ = FindAvailablePort cfg.IsPortAllowedForScheme host
        (InitializePortsAndPrefs cfg w).extension_port_) ∧
    (Start cfg host w).log = w.log ++
      [Effect.StartRemoteDebuggingServer (toUint16 (Start cfg host w).cdp_port_),
       Effect.PostLaunch (toUint16 (Start cfg host w).cdp_port_)
         (toUint16 (Start cfg host w).mcp_port_) (toUint16 (Start cfg host w).agent_port_)
         (toUint16 (Start cfg host w).extension_port_)] ∧
    (∀ p : Int, 0 ≤ p → p ≤ 65535 → toUint16 p = p) ∧
    (((Start cfg host w).cdp_port_ = (InitializePortsAndPrefs cfg w).cdp_port_ ↔
        keptByProbe cfg.IsPortAllowedForScheme host (InitializePortsAndPrefs cfg w).cdp_port_) ∧
      ((Start cfg host w).mcp_port_ = (InitializePortsAndPrefs cfg w).mcp_port_ ↔
        keptByProbe cfg.IsPortAllowedForScheme host (InitializePortsAndPrefs cfg w).mcp_port_) ∧
      ((Start cfg host w).agent_port_ = (InitializePortsAndPrefs cfg w).agent_port_ ↔
        keptByProbe cfg.IsPortAllowedForScheme host
          (InitializePortsAndPrefs cfg w).agent_port_) ∧
      ((Start cfg host w).extension_port_ = (InitializePortsAndPrefs cfg w).extension_port_ ↔
        keptByProbe cfg.IsPortAllowedForScheme host
          (InitializePortsAndPrefs cfg w).extension_port_)) ∧
    ((IsPortAvailable cfg.IsPortAllowedForScheme host
          (InitializePortsAndPrefs cfg w).cdp_port_ = true →
        (Start cfg host w).cdp_port_ = (InitializePortsAndPrefs cfg w).cdp_port_ ∧
        toUint16 (Start cfg host w).cdp_port_ = (InitializePortsAndPrefs cfg w).cdp_port_) ∧
      (IsPortAvailable cfg.IsPortAllowedForScheme host
          (InitializePortsAndPrefs cfg w).mcp_port_ = true →
        (Start cfg host w).mcp_port_ = (InitializePortsAndPrefs cfg w).mcp_port_ ∧
        toUint16 (Start cfg host w).mcp_port_ = (InitializePortsAndPrefs cfg w).mcp_port_) ∧
      (IsPortAvailable cfg.IsPortAllowedForScheme host
          (InitializePortsAndPrefs cfg w).agent_port_ = true →
        (Start cfg host w).agent_port_ = (InitializePortsAndPrefs cfg w).agent_port_ ∧
        toUint16 (Start cfg host w).agent_port_ = (InitializePortsAndPrefs cfg w).agent_port_) ∧
      (IsPortAvailable cfg.IsPortAllowedForScheme host
          (InitializePortsAndPrefs cfg w).extension_port_ = true →
        (Start cfg host w).extension_port_ = (InitializePortsAndPrefs cfg w).extension_port_ ∧
        toUint16 (Start cfg host w).extension_port_ =
          (InitializePortsAndPrefs cfg w).extension_port_)) ∧
    (IsPortAvailable cfg.IsPortAllowedForScheme host
          (InitializePortsAndPrefs cfg w).cdp_port_ = true →
      IsPortAvailable cfg.IsPortAllowedForScheme host
          (InitializePortsAndPrefs cfg w).mcp_port_ = true →
      IsPortAvailable cfg.IsPortAllowedForScheme host
          (InitializePortsAndPrefs cfg w).agent_port_ = true →
      IsPortAvailable cfg.IsPortAllowedForScheme host
          (InitializePortsAndPrefs cfg w).extension_port_ = true →
      (Start cfg host w).log = w.log ++
        [Effect.StartRemoteDebuggingServer (InitializePortsAndPrefs cfg w).cdp_port_,
         Effect.PostLaunch (InitializePortsAndPrefs cfg w).cdp_port_
           (InitializePortsAndPrefs cfg w).mcp_port_ (InitializePortsAndPrefs cfg w).agent_port_
           (InitializePortsAndPrefs cfg w).extension_port_]) := by
  have hS := Start_eq_of_not_running cfg host w hrun hd
  have hI := InitializePortsAndPrefs_eq cfg w
  have key : ∀ p : Int, IsPortAvailable cfg.IsPortAllowedForScheme host p = true →
      FindAvailablePort cfg.IsPortAllowedForScheme host p = p ∧
      toUint16 (FindAvailablePort cfg.IsPortAllowedForScheme host p) = p := by
    intro p h
    have h1 := FindAvailablePort_of_available _ host p h
    have h2 := IsPortAvailable_range _ host p h
    rw [h1]
    exact ⟨rfl, toUint16_of_range p (by omega) h2.2⟩
  have hports : (Start cfg host w).cdp_port_ = FindAvailablePort cfg.IsPortAllowedForScheme host
        (InitializePortsAndPrefs cfg w).cdp_port_ ∧
      (Start cfg host w).mcp_port_ = FindAvailablePort cfg.IsPortAllowedForScheme host
        (InitializePortsAndPrefs cfg w).mcp_port_ ∧
      (Start cfg host w).agent_port_ = FindAvailablePort cfg.IsPortAllowedForScheme host
        (InitializePortsAndPrefs cfg w).agent_port_ ∧
      (Start cfg host w).extension_port_ = FindAvailablePort cfg.IsPortAllowedForScheme host
        (InitializePortsAndPrefs cfg w).extension_port_ := by
    rw [hS]; simp [LaunchBrowserOSProcess, StartCDPServer]
  obtain ⟨p1, p2, p3, p4⟩ := hports
  have hlog : (Start cfg host w).log = w.log ++
      [Effect.StartRemoteDebuggingServer (toUint16 (Start cfg host w).cdp_port_),
       Effect.PostLaunch (toUint16 (Start cfg host w).cdp_port_)
         (toUint16 (Start cfg host w).mcp_port_) (toUint16 (Start cfg host w).agent_port_)
         (toUint16 (Start cfg host w).extension_port_)] := by
    rw [hS, hI]; simp [LaunchBrowserOSProcess, StartCDPServer]
  refine ⟨?_, ⟨p1, p2, p3, p4⟩, hlog, toUint16_of_range, ⟨?_, ?_, ?_, ?_⟩, ⟨?_, ?_, ?_, ?_⟩,
    ?_⟩
  · rw [hS, hI, hstore]; simp [LaunchBrowserOSProcess, StartCDPServer]
  · rw [p1]; exact FindAvailablePort_eq_self_iff _ host _
  · rw [p2]; exact FindAvailablePort_eq_self_iff _ host _
  · rw [p3]; exact FindAvailablePort_eq_self_iff _ host _
  · rw [p4]; exact FindAvailablePort_eq_self_iff _ host _
  · intro h; rw [p1]; exact key _ h
  · intro h; rw [p2]; exact key _ h
  · intro h; rw [p3]; exact key _ h
  · intro h; rw [p4]; exact key _ h
  · intro h1 h2 h3 h4
    rw [hlog, p1, p2, p3, p4, (key _ h1).2, (key _ h2).2, (key _ h3).2, (key _ h4).2]

/-- Witness for the amended C18: with 9222 taken, the reported debug port is the
renegotiated one and the launch carries it, while the control port, stored as
9223 and available, is reported and launched as stored. -/
theorem Start_store_reported_launched_witness :
    (Start Config.sample Host.busy9222 World.fresh).cdp_port_ =
      FindAvailablePort Config.sample.IsPortAllowedForScheme Host.busy9222
        (InitializePortsAndPrefs Config.sample World.fresh).cdp_port_ ∧
    (Start Config.sample Host.busy9222 World.fresh).log = World.fresh.log ++
      [Effect.StartRemoteDebuggingServer
         (toUint16 (Start Config.sample Host.busy9222 World.fresh).cdp_port_),
       Effect.PostLaunch (toUint16 (Start Config.sample Host.busy9222 World.fresh).cdp_port_)
         (toUint16 (Start Config.sample Host.busy9222 World.fresh).mcp_port_)
         (toUint16 (Start Config.sample Host.busy9222 World.fresh).agent_port_)
         (toUint16 (Start Config.sample Host.busy9222 World.fresh).extension_port_)] ∧
    ((Start Config.sample Host.busy9222 World.fresh).mcp_port_ =
        (InitializePortsAndPrefs Config.sample World.fresh).mcp_port_ ∧
      toUint16 (Start Config.sample Host.busy9222 World.fresh).mcp_port_ =
        (InitializePortsAndPrefs Config.sample World.fresh).mcp_port_) :=
  ⟨(Start_store_reported_launched Config.sample Host.busy9222 World.fresh Prefs.sample
      rfl rfl rfl).2.1.1,
   (Start_store_reported_launched Config.sample Host.busy9222 World.fresh Prefs.sample
      rfl rfl rfl).2.2.1,
   (Start_store_reported_launched Config.sample Host.busy9222 World.fresh Prefs.sample
      rfl rfl rfl).2.2.2.2.2.1.2.1 (by decide)⟩

theorem resolveAlike_symm (allowed : Int → Bool) (host : Host) (p q : Int) :
    resolveAlike allowed host p q ↔ resolveAlike allowed host q p := by
  unfold resolveAlike
  rw [min_comm p q, max_comm p q]

end BrowserOS
